import Mathlib

/-!
Shallow embedding of the YouTube search caching core of the okoa_sem backend
(src/app/services/youtube_service.py, src/app/services/youtube_cache_service.py,
src/app/api/v1/endpoints/videos.py), together with theorems settling the
specification claims about it.

Python strings are modelled as Lean `String`, Python ints as `Int`/`Nat`,
JSON documents as an explicit `JsonVal` tree (the text codec of the Python
standard library is taken as the identity on that tree), embedding vectors as
lists of rationals with the similarity function kept abstract, and the Redis
client as a record of operations over an abstract store state that may fail.
-/

namespace OkoaSem

/-- ASCII whitespace test matching the characters Python's `str.strip()` removes
in the ASCII range (space, tab, newline, carriage return, vertical tab, form feed). -/
def pyIsSpace (c : Char) : Bool :=
  c = ' ' || c = '\t' || c = '\n' || c = '\r' || c = '\x0b' || c = '\x0c'

/-- Embeds Python `str.lower()`, character by character (ASCII case mapping). -/
def pyLower (s : String) : String :=
  String.mk (s.data.map Char.toLower)

/-- Embeds Python `str.strip()` with no argument: drop leading and trailing whitespace. -/
def pyStrip (s : String) : String :=
  String.mk (((s.data.dropWhile pyIsSpace).reverse.dropWhile pyIsSpace).reverse)

/-- The composition `query.lower().strip()` used throughout the cache service. -/
def pyNormQuery (s : String) : String :=
  pyStrip (pyLower s)

/-! ### Duration parsing (YouTubeService._parse_duration) -/

/-- Numeric value of a list of decimal digit characters, most significant first,
as Python `int()` of the matched regex group. -/
def digitsVal (ds : List Char) : Nat :=
  ds.foldl (fun a c => 10 * a + (c.toNat - 48)) 0

/-- Maximal leading run of decimal digits, mirroring the regex fragment `(\d+)`:
fails when there is no leading digit. -/
def readDigits (cs : List Char) : Option (Nat × List Char) :=
  let ds := cs.takeWhile Char.isDigit
  if ds.isEmpty then none
  else some (digitsVal ds, cs.dropWhile Char.isDigit)

/-- One optional component of the duration regex, mirroring `(?:(\d+)X)?` for a unit
letter X: a maximal digit run immediately followed by the letter; on any failure the
optional group is skipped, contributing 0 and consuming nothing.  Regex backtracking
cannot rescue a failed group here, because shortening the greedy digit run always
leaves a digit, never the unit letter, as the next character. -/
def duraComp (letter : Char) (cs : List Char) : Nat × List Char :=
  match readDigits cs with
  | none => (0, cs)
  | some (n, rest) =>
    match rest with
    | [] => (0, cs)
    | c :: rest' => if c = letter then (n, rest') else (0, cs)

/-- Python format spec `{n:02d}` for a nonnegative int: zero-pad to two digits. -/
def pad2 (n : Nat) : String :=
  if n < 10 then "0" ++ toString n else toString n

/-- Embeds `YouTubeService._parse_duration` (src/app/services/youtube_service.py):
empty input yields the empty string; `re.match` anchors the pattern
`PT(?:(\d+)H)?(?:(\d+)M)?(?:(\d+)S)?` at the start, so an input not starting with
`PT` yields the empty string; missing components default to 0; hours > 0 selects
the `H:MM:SS` format, otherwise `M:SS`. -/
def parseDuration (duration : String) : String :=
  if duration = "" then ""
  else
    match duration.data with
    | 'P' :: 'T' :: rest =>
      let hp := duraComp 'H' rest
      let mp := duraComp 'M' hp.2
      let sp := duraComp 'S' mp.2
      if hp.1 > 0 then
        toString hp.1 ++ ":" ++ pad2 mp.1 ++ ":" ++ pad2 sp.1
      else
        toString mp.1 ++ ":" ++ pad2 sp.1
    | _ => ""

/-- Renders an optional duration component as digit characters followed by the unit
letter, empty when the component is absent. -/
def compStr (d : Option (List Char)) (letter : Char) : List Char :=
  match d with
  | none => []
  | some ds => ds ++ [letter]

/-- Numeric value of an optional duration component, 0 when absent. -/
def compVal (d : Option (List Char)) : Nat :=
  match d with
  | none => 0
  | some ds => digitsVal ds

/-- Well-formedness of an optional duration component: when present, a nonempty
run of decimal digit characters. -/
def goodComp (d : Option (List Char)) : Prop :=
  match d with
  | none => True
  | some ds => ds ≠ [] ∧ ∀ c ∈ ds, c.isDigit

theorem takeWhile_all_append (p : Char → Bool) (l : List Char) (c : Char) (rest : List Char)
    (hl : ∀ x ∈ l, p x) (hc : ¬ p c) :
    (l ++ c :: rest).takeWhile p = l ∧ (l ++ c :: rest).dropWhile p = c :: rest := by
  induction l with
  | nil => simp [List.takeWhile, List.dropWhile, hc]
  | cons d l ih =>
    have hd : p d := hl d (by simp)
    have ih' := ih (fun x hx => hl x (by simp [hx]))
    simp [List.takeWhile, List.dropWhile, hd, ih'.1, ih'.2]

theorem readDigits_exact (ds : List Char) (hne : ds ≠ []) (hd : ∀ c ∈ ds, c.isDigit)
    (c : Char) (hc : ¬ c.isDigit) (rest : List Char) :
    readDigits (ds ++ c :: rest) = some (digitsVal ds, c :: rest) := by
  have h := takeWhile_all_append Char.isDigit ds c rest hd hc
  unfold readDigits
  rw [h.1, h.2]
  simp [List.isEmpty_iff, hne]

theorem duraComp_hit (L : Char) (hL : ¬ L.isDigit) (ds : List Char)
    (hne : ds ≠ []) (hd : ∀ c ∈ ds, c.isDigit) (rest : List Char) :
    duraComp L (ds ++ L :: rest) = (digitsVal ds, rest) := by
  unfold duraComp
  rw [readDigits_exact ds hne hd L hL rest]
  simp

theorem duraComp_mismatch (L L' : Char) (hL' : ¬ L'.isDigit) (hne' : L' ≠ L)
    (ds : List Char) (hne : ds ≠ []) (hd : ∀ c ∈ ds, c.isDigit) (rest : List Char) :
    duraComp L (ds ++ L' :: rest) = (0, ds ++ L' :: rest) := by
  unfold duraComp
  rw [readDigits_exact ds hne hd L' hL' rest]
  simp [hne']

theorem duraComp_nil (L : Char) : duraComp L [] = (0, []) := rfl

theorem mkPT_ne_empty (l : List Char) : String.mk ('P' :: 'T' :: l) ≠ "" := by
  intro h
  have := congrArg String.data h
  simp at this

theorem parseDuration_mkPT (l : List Char) :
    parseDuration (String.mk ('P' :: 'T' :: l)) =
      (let hp := duraComp 'H' l
       let mp := duraComp 'M' hp.2
       let sp := duraComp 'S' mp.2
       if hp.1 > 0 then
         toString hp.1 ++ ":" ++ pad2 mp.1 ++ ":" ++ pad2 sp.1
       else
         toString mp.1 ++ ":" ++ pad2 sp.1) := by
  unfold parseDuration
  rw [if_neg (mkPT_ne_empty l)]
  rfl

theorem compStr_some (ds : List Char) (L : Char) : compStr (some ds) L = ds ++ [L] := rfl

theorem compStr_none (L : Char) : compStr none L = [] := rfl

/-- C6, counterexample.  The claim gives the literal inputs `"4M13S"`-style and
`"1H2M3S"`; `re.match` anchors the pattern `PT…` at position 0, so an input without
the `PT` prefix does not match and the function returns the empty string, not
`"1:02:03"`. -/
theorem parseDuration_no_pt_counterexample :
    parseDuration "1H2M3S" = "" ∧ parseDuration "1H2M3S" ≠ "1:02:03" ∧
      parseDuration "4M13S" = "" := by
  refine ⟨by decide, by decide, by decide⟩

/-- C6, amended.  The duration parser maps the empty string to the empty string, and
for every compact duration input carrying the upstream `PT` prefix (optional digit
runs for hours, minutes, seconds, each tagged by its unit letter, any subset of the
three components present), it yields `H:MM:SS` (zero-padded minutes and seconds) when
hours > 0 and `M:SS` otherwise, with missing components defaulting to 0; in particular
`"PT4M13S"` yields `"4:13"` and `"PT1H2M3S"` yields `"1:02:03"`. -/
theorem parseDuration_compact (H M S : Option (List Char))
    (hH : goodComp H) (hM : goodComp M) (hS : goodComp S) :
    parseDuration "" = "" ∧
    parseDuration (String.mk ('P' :: 'T' ::
        (compStr H 'H' ++ compStr M 'M' ++ compStr S 'S'))) =
      (if compVal H > 0 then
        toString (compVal H) ++ ":" ++ pad2 (compVal M) ++ ":" ++ pad2 (compVal S)
      else
        toString (compVal M) ++ ":" ++ pad2 (compVal S)) := by
  refine ⟨rfl, ?_⟩
  rw [parseDuration_mkPT]
  have hHd : ¬ ('H' : Char).isDigit := by decide
  have hMd : ¬ ('M' : Char).isDigit := by decide
  have hSd : ¬ ('S' : Char).isDigit := by decide
  cases H with
  | some dsH =>
    obtain ⟨hne, hdig⟩ := hH
    dsimp only [compStr_some, compStr_none]
    simp only [List.append_assoc, List.cons_append, List.nil_append, List.append_nil]
    rw [duraComp_hit 'H' hHd dsH hne hdig _]
    dsimp only
    cases M with
    | some dsM =>
      obtain ⟨hneM, hdigM⟩ := hM
      dsimp only [compStr_some, compStr_none]
      simp only [List.append_assoc, List.cons_append, List.nil_append, List.append_nil]
      rw [duraComp_hit 'M' hMd dsM hneM hdigM _]
      dsimp only
      cases S with
      | some dsS =>
        obtain ⟨hneS, hdigS⟩ := hS
        dsimp only [compStr_some, compStr_none]
        rw [duraComp_hit 'S' hSd dsS hneS hdigS []]
        rfl
      | none =>
        dsimp only [compStr_some, compStr_none]
        rw [duraComp_nil]
        rfl
    | none =>
      cases S with
      | some dsS =>
        obtain ⟨hneS, hdigS⟩ := hS
        dsimp only [compStr_some, compStr_none]
        simp only [List.nil_append]
        rw [duraComp_mismatch 'M' 'S' hSd (by decide) dsS hneS hdigS []]
        dsimp only
        rw [duraComp_hit 'S' hSd dsS hneS hdigS []]
        rfl
      | none =>
        dsimp only [compStr_some, compStr_none]
        simp only [List.append_nil]
        rw [duraComp_nil, duraComp_nil]
        rfl
  | none =>
    cases M with
    | some dsM =>
      obtain ⟨hneM, hdigM⟩ := hM
      dsimp only [compStr_some, compStr_none]
      simp only [List.append_assoc, List.cons_append, List.nil_append, List.append_nil]
      rw [duraComp_mismatch 'H' 'M' hMd (by decide) dsM hneM hdigM _]
      dsimp only
      rw [duraComp_hit 'M' hMd dsM hneM hdigM _]
      dsimp only
      cases S with
      | some dsS =>
        obtain ⟨hneS, hdigS⟩ := hS
        dsimp only [compStr_some, compStr_none]
        rw [duraComp_hit 'S' hSd dsS hneS hdigS []]
        rfl
      | none =>
        dsimp only [compStr_some, compStr_none]
        rw [duraComp_nil]
        rfl
    | none =>
      cases S with
      | some dsS =>
        obtain ⟨hneS, hdigS⟩ := hS
        dsimp only [compStr_some, compStr_none]
        simp only [List.nil_append]
        rw [duraComp_mismatch 'H' 'S' hSd (by decide) dsS hneS hdigS []]
        dsimp only
        rw [duraComp_mismatch 'M' 'S' hSd (by decide) dsS hneS hdigS []]
        dsimp only
        rw [duraComp_hit 'S' hSd dsS hneS hdigS []]
        rfl
      | none =>
        dsimp only [compStr_some, compStr_none]
        simp only [List.append_nil]
        rw [duraComp_nil, duraComp_nil, duraComp_nil]
        rfl

/-- Witness for the amended C6 theorem at the concrete inputs of the claim:
`"PT1H2M3S"` parses to `"1:02:03"` and `"PT4M13S"` parses to `"4:13"`. -/
theorem parseDuration_compact_witness :
    parseDuration "PT1H2M3S" = "1:02:03" ∧ parseDuration "PT4M13S" = "4:13" := by
  constructor
  · have h := (parseDuration_compact (some ['1']) (some ['2']) (some ['3'])
      (by constructor <;> decide) (by constructor <;> decide)
      (by constructor <;> decide)).2
    have e : String.mk ('P' :: 'T' ::
        (compStr (some ['1']) 'H' ++ compStr (some ['2']) 'M' ++ compStr (some ['3']) 'S')) =
        "PT1H2M3S" := by decide
    rw [e] at h
    exact h.trans (by decide)
  · have h := (parseDuration_compact none (some ['4']) (some ['1', '3'])
      trivial (by constructor <;> decide) (by constructor <;> decide)).2
    have e : String.mk ('P' :: 'T' ::
        (compStr none 'H' ++ compStr (some ['4']) 'M' ++ compStr (some ['1', '3']) 'S')) =
        "PT4M13S" := by decide
    rw [e] at h
    exact h.trans (by decide)

/-! ### The search endpoint's max_results parameter (videos.py) -/

/-- Embeds the FastAPI parameter declaration `max_results: int = Query(20, le=50, ge=1)`
of the `/search` endpoint (src/app/api/v1/endpoints/videos.py): an absent parameter
takes the default 20; a supplied value violating `ge=1` or `le=50` is rejected by
FastAPI's validation with a 422 error response — it is not clamped. -/
def maxResultsParam (supplied : Option Int) : Except String Int :=
  match supplied with
  | none => Except.ok 20
  | some n =>
    if n < 1 then Except.error "Input should be greater than or equal to 1"
    else if n > 50 then Except.error "Input should be less than or equal to 50"
    else Except.ok n

/-- C8, counterexample.  A request with `max_results = 51` is rejected by the
parameter validation, so the search does not proceed with a clamped value. -/
theorem maxResultsParam_counterexample :
    maxResultsParam (some 51) = Except.error "Input should be less than or equal to 50" ∧
      (maxResultsParam (some 51)).isOk = false ∧
      (maxResultsParam (some 0)).isOk = false := by
  refine ⟨rfl, rfl, rfl⟩

/-- C8, amended.  Whenever the `/search` handler actually runs, the `max_results`
value it uses lies in [1, 50]: the declared constraints `ge=1`/`le=50` reject any
out-of-range value with a validation error (no clamping), and the default is 20. -/
theorem maxResultsParam_in_range (supplied : Option Int) (n : Int)
    (h : maxResultsParam supplied = Except.ok n) :
    1 ≤ n ∧ n ≤ 50 := by
  cases supplied with
  | none =>
    simp only [maxResultsParam] at h
    cases h
    omega
  | some m =>
    simp only [maxResultsParam] at h
    by_cases h1 : m < 1
    · simp [h1] at h
    · by_cases h2 : m > 50
      · simp [h1, h2] at h
      · simp [h1, h2] at h
        omega

/-- Witness for the amended C8 theorem: the value 7 is accepted and lies in range. -/
theorem maxResultsParam_in_range_witness : 1 ≤ (7 : Int) ∧ (7 : Int) ≤ 50 :=
  maxResultsParam_in_range (some 7) 7 rfl

/-! ### Data model (app/schemas/video.py) -/

/-- Embeds the pydantic model `YouTubeSearchResult`: required string fields plus the
two optional string fields `duration` and `view_count` defaulting to None. -/
structure YouTubeSearchResult where
  id : String
  title : String
  description : String
  thumbnail_url : String
  channel_title : String
  published_at : String
  duration : Option String
  view_count : Option String
deriving DecidableEq

/-- Embeds the pydantic model `YouTubeSearchResponse`: the videos list, the total
result count and the optional continuation token. -/
structure YouTubeSearchResponse where
  videos : List YouTubeSearchResult
  total_results : Int
  next_page_token : Option String
deriving DecidableEq

/-! ### Upstream client (YouTubeService.search_videos) -/

/-- Outcome of one HTTP GET against the upstream search endpoint, keyed by the
credential the request carried: either a 2xx response whose parsed payload is the
assembled `YouTubeSearchResponse`, or a non-2xx status, with a flag recording
whether the error body signals quota exhaustion for that credential. -/
inductive UpstreamOutcome where
  | success (resp : YouTubeSearchResponse)
  | httpError (status : Nat) (quotaExceeded : Bool)
deriving DecidableEq

/-- Failure raised out of the upstream client: `response.raise_for_status()` turns
any non-2xx upstream response into an exception carrying the status, whatever the
error body said. -/
inductive UpstreamFailure where
  | httpStatusError (status : Nat) (quotaExceeded : Bool)
deriving DecidableEq

/-- Embeds `YouTubeService.search_videos` (src/app/services/youtube_service.py).
The service is constructed with the single configured credential
`settings.YOUTUBE_API_KEY`; the method builds the request parameters with that key,
issues one GET against the search endpoint, and calls `raise_for_status()`, which
propagates any non-2xx response as an exception.  There is no credential pool, no
cursor, and no retry anywhere in the method.  The network is modelled as a function
from the credential carried by the request to the outcome; response-body parsing
and the follow-up details request (which reuses the same single key) are folded
into the success payload.  The first component of the result records the
credentials the search request was attempted with, in order. -/
def searchVideos (apiKey : String) (net : String → UpstreamOutcome) :
    List String × Except UpstreamFailure YouTubeSearchResponse :=
  match net apiKey with
  | .success r => ([apiKey], Except.ok r)
  | .httpError s q => ([apiKey], Except.error (.httpStatusError s q))

/-- A concrete response used in the credential-rotation counterexample. -/
def respThird : YouTubeSearchResponse :=
  ⟨[], 0, none⟩

/-- A concrete upstream behavior for the claimed rotation scenario: the first two
credentials of the pool `["key1", "key2", "key3"]` are quota-exhausted and the
third succeeds. -/
def netQuotaPool : String → UpstreamOutcome := fun k =>
  if k = "key3" then .success respThird else .httpError 403 true

/-- C1, counterexample.  In the claimed scenario — a pool of three credentials
where the first two are quota-exhausted and the third succeeds — the client,
configured as the code configures it with the pool's current (first) credential,
fails with the propagated quota error instead of rotating to the third credential
and succeeding; only the first credential is ever attempted, although the third
would have succeeded. -/
theorem searchVideos_rotation_counterexample :
    searchVideos "key1" netQuotaPool =
        (["key1"], Except.error (.httpStatusError 403 true)) ∧
      (searchVideos "key1" netQuotaPool).2.isOk = false ∧
      netQuotaPool "key3" = .success respThird := by
  refine ⟨rfl, rfl, rfl⟩

/-- C1, amended.  The repository's upstream client holds exactly one configured
credential and no pool: every search call is attempted exactly once, with that
credential only; a quota-exhaustion failure (like any non-2xx response) is
propagated immediately to the caller by `raise_for_status()` with no rotation and
no retry, and a 2xx response is returned as parsed. -/
theorem searchVideos_single_attempt (apiKey : String) (net : String → UpstreamOutcome) :
    (searchVideos apiKey net).1 = [apiKey] ∧
    (∀ s q, net apiKey = .httpError s q →
      (searchVideos apiKey net).2 = Except.error (.httpStatusError s q)) ∧
    (∀ r, net apiKey = .success r → (searchVideos apiKey net).2 = Except.ok r) := by
  refine ⟨?_, ?_, ?_⟩
  · cases h : net apiKey <;> simp [searchVideos, h]
  · intro s q h
    simp [searchVideos, h]
  · intro r h
    simp [searchVideos, h]

/-- Witness for the amended C1 theorem on the concrete pool scenario: with the
first credential the quota error propagates; with the third it succeeds. -/
theorem searchVideos_single_attempt_witness :
    (searchVideos "key1" netQuotaPool).2 = Except.error (.httpStatusError 403 true) ∧
      (searchVideos "key3" netQuotaPool).2 = Except.ok respThird :=
  ⟨(searchVideos_single_attempt "key1" netQuotaPool).2.1 403 true rfl,
   (searchVideos_single_attempt "key3" netQuotaPool).2.2 respThird rfl⟩

/-! ### Cache key derivation (YouTubeCacheService._generate_cache_key) -/

/-- The cache key namespace `self.prefix = "youtube_search"`. -/
def prefixStr : String := "youtube_search"

/-- JSON string escaping as performed by `json.dumps` for the ASCII characters it
escapes with a short sequence; everything else passes through.  The keying claims
only use that the encoding is a deterministic function of the string. -/
def jsonEscapeChar (c : Char) : List Char :=
  if c = '\\' then ['\\', '\\']
  else if c = '"' then ['\\', '"']
  else if c = '\n' then ['\\', 'n']
  else if c = '\t' then ['\\', 't']
  else if c = '\r' then ['\\', 'r']
  else [c]

/-- Escapes every character of a string for embedding in a JSON string literal. -/
def jsonEscape (s : String) : String :=
  String.mk (s.data.foldr (fun c acc => jsonEscapeChar c ++ acc) [])

/-- A JSON string literal: escaped content between double quotes. -/
def jsonStrLit (s : String) : String :=
  "\"" ++ jsonEscape s ++ "\""

/-- JSON booleans as rendered by `json.dumps`. -/
def pyBool (b : Bool) : String :=
  if b then "true" else "false"

/-- The canonical parameter encoding `json.dumps(params, sort_keys=True)` inside
`_generate_cache_key`: the five parameters under their sorted key names
(educational < max_results < order < page_token < q), with the query lowercased
and stripped and an absent page token replaced by the empty string
(`page_token or ""`). -/
def paramString (query : String) (maxResults : Int) (pageToken : Option String)
    (order : String) (isEducational : Bool) : String :=
  "\x7b\"educational\": " ++ pyBool isEducational ++
    ", \"max_results\": " ++ toString maxResults ++
    ", \"order\": " ++ jsonStrLit order ++
    ", \"page_token\": " ++ jsonStrLit (pageToken.getD "") ++
    ", \"q\": " ++ jsonStrLit (pyNormQuery query) ++ "\x7d"

/-- Embeds `YouTubeCacheService._generate_cache_key`: the md5 hex digest of the
canonical parameter encoding, prefixed with the namespace and the category tag
(`"edu"` when educational else `"search"`).  The md5 hex digest is an abstract
function argument: the claims about the key use only that it is a deterministic
function of the encoded string. -/
def generateCacheKey (md5hex : String → String) (query : String) (maxResults : Int)
    (pageToken : Option String) (order : String) (isEducational : Bool) : String :=
  prefixStr ++ ":" ++ (if isEducational then "edu" else "search") ++ ":" ++
    md5hex (paramString query maxResults pageToken order isEducational)

/-- C3.  Parameter tuples that agree after normalization — lowercasing and stripping
the query, and reading an absent page token as the empty string — produce identical
cache keys; in particular an absent page token and an empty-string page token
coincide; and every key has the shape `prefix:category:hash` with category `edu`
exactly when the search is educational and `search` otherwise. -/
theorem generateCacheKey_normalized (md5hex : String → String)
    (q q' : String) (mr : Int) (pt pt' : Option String) (ord : String) (edu : Bool)
    (hq : pyNormQuery q = pyNormQuery q') (hp : pt.getD "" = pt'.getD "") :
    generateCacheKey md5hex q mr pt ord edu = generateCacheKey md5hex q' mr pt' ord edu ∧
      generateCacheKey md5hex q mr pt ord edu =
        prefixStr ++ ":" ++ (if edu then "edu" else "search") ++ ":" ++
          md5hex (paramString q mr pt ord edu) := by
  refine ⟨?_, rfl⟩
  unfold generateCacheKey paramString
  rw [hq, hp]

/-- Witness for C3: a query differing only in case and surrounding blanks, with an
absent versus empty page token, yields the same key (the md5 oracle instantiated
with the identity function). -/
theorem generateCacheKey_normalized_witness :
    generateCacheKey (fun s => s) "  PyThOn  " 20 none "relevance" false =
        generateCacheKey (fun s => s) "python" 20 (some "") "relevance" false ∧
      generateCacheKey (fun s => s) "  PyThOn  " 20 none "relevance" false =
        prefixStr ++ ":" ++ (if false then "edu" else "search") ++ ":" ++
          (fun s => s) (paramString "  PyThOn  " 20 none "relevance" false) :=
  generateCacheKey_normalized (fun s => s) "  PyThOn  " "python" 20 none (some "")
    "relevance" false (by decide) (by decide)

/-! ### Serialized search responses

The cache stores `results.model_dump_json()` and reconstructs responses with
`YouTubeSearchResponse(**json.loads(cached_data))`.  The serialized form is
modelled as an explicit JSON tree; the text codec of the Python standard library
(`json.dumps`/`json.loads`) is taken as the identity on that tree. -/

/-- A JSON document as stored in the cache. -/
inductive JsonVal where
  | null
  | bool (b : Bool)
  | int (n : Int)
  | str (s : String)
  | arr (elems : List JsonVal)
  | obj (fields : List (String × JsonVal))

/-- Serialization of an optional string field: pydantic renders None as JSON null. -/
def optStrJson : Option String → JsonVal
  | none => JsonVal.null
  | some s => JsonVal.str s

/-- The `model_dump_json` serialization of one `YouTubeSearchResult`: all fields,
in declaration order. -/
def dumpResult (v : YouTubeSearchResult) : JsonVal :=
  .obj [("id", .str v.id), ("title", .str v.title), ("description", .str v.description),
    ("thumbnail_url", .str v.thumbnail_url), ("channel_title", .str v.channel_title),
    ("published_at", .str v.published_at), ("duration", optStrJson v.duration),
    ("view_count", optStrJson v.view_count)]

/-- The `model_dump_json` serialization of a `YouTubeSearchResponse`. -/
def dumpResponse (r : YouTubeSearchResponse) : JsonVal :=
  .obj [("videos", .arr (r.videos.map dumpResult)),
    ("total_results", .int r.total_results),
    ("next_page_token", optStrJson r.next_page_token)]

/-- First binding of a key in a JSON object, as `json.loads` produces dicts. -/
def jGet : List (String × JsonVal) → String → Option JsonVal
  | [], _ => none
  | (k, v) :: rest, key => if k = key then some v else jGet rest key

/-- Reads a required string field, as pydantic validation of a `str` field:
missing or non-string values are a validation error. -/
def jStrField (fs : List (String × JsonVal)) (k : String) : Option String :=
  match jGet fs k with
  | some (.str s) => some s
  | _ => none

/-- Reads an optional string field, as pydantic validation of an
`Optional[str] = None` field: missing or null means None; a non-string,
non-null value is a validation error. -/
def jOptStrField (fs : List (String × JsonVal)) (k : String) : Option (Option String) :=
  match jGet fs k with
  | none => some none
  | some JsonVal.null => some none
  | some (JsonVal.str s) => some (some s)
  | some _ => none

/-- Validation of one serialized `YouTubeSearchResult`, as pydantic reconstructs it. -/
def loadResult (j : JsonVal) : Option YouTubeSearchResult :=
  match j with
  | .obj fs =>
    (jStrField fs "id").bind fun i =>
    (jStrField fs "title").bind fun t =>
    (jStrField fs "description").bind fun d =>
    (jStrField fs "thumbnail_url").bind fun tu =>
    (jStrField fs "channel_title").bind fun ct =>
    (jStrField fs "published_at").bind fun pa =>
    (jOptStrField fs "duration").bind fun du =>
    (jOptStrField fs "view_count").map fun vc =>
      ⟨i, t, d, tu, ct, pa, du, vc⟩
  | _ => none

/-- Validation of the serialized videos list: every element must validate. -/
def loadVideos : List JsonVal → Option (List YouTubeSearchResult)
  | [] => some []
  | j :: rest => (loadResult j).bind fun v => (loadVideos rest).map fun vs => v :: vs

/-- Validation of a serialized `YouTubeSearchResponse`, as
`YouTubeSearchResponse(**json.loads(cached_data))` reconstructs it. -/
def loadResponse (j : JsonVal) : Option YouTubeSearchResponse :=
  match j with
  | .obj fs =>
    (match jGet fs "videos" with
      | some (.arr xs) => loadVideos xs
      | _ => none).bind fun vs =>
    (match jGet fs "total_results" with
      | some (.int n) => some n
      | _ => none).bind fun n =>
    (jOptStrField fs "next_page_token").map fun pt =>
      ⟨vs, n, pt⟩
  | _ => none

theorem loadResult_dumpResult (v : YouTubeSearchResult) :
    loadResult (dumpResult v) = some v := by
  obtain ⟨i, t, d, tu, ct, pa, du, vc⟩ := v
  cases du <;> cases vc <;> rfl

theorem loadVideos_dump (vs : List YouTubeSearchResult) :
    loadVideos (vs.map dumpResult) = some vs := by
  induction vs with
  | nil => rfl
  | cons v rest ih =>
    simp only [List.map_cons, loadVideos, loadResult_dumpResult v, ih]
    rfl

/-- The serialized form of a search response round-trips exactly: validating the
`model_dump_json` output reproduces the original value. -/
theorem loadResponse_dumpResponse (r : YouTubeSearchResponse) :
    loadResponse (dumpResponse r) = some r := by
  obtain ⟨vs, n, pt⟩ := r
  have hv : loadVideos (vs.map dumpResult) = some vs := loadVideos_dump vs
  cases pt with
  | none =>
    simp only [dumpResponse, loadResponse, jGet, optStrJson]
    simp [hv, jOptStrField, jGet]
  | some s =>
    simp only [dumpResponse, loadResponse, jGet, optStrJson]
    simp [hv, jOptStrField, jGet]

/-! ### The cache service over an abstract Redis client
(YouTubeCacheService, src/app/services/youtube_cache_service.py) -/

/-- Embedding vectors of the sentence-transformer model, modelled as rational
lists; the float32 `tobytes`/`frombuffer` pair is taken as the identity. -/
abbrev Emb := List ℚ

/-- A fault raised out of a cache-layer call: store/network errors, Redis
WRONGTYPE errors on a key holding the wrong kind of value, and json/pydantic
errors while validating a cached payload.  All of them are ordinary exceptions
to the service's try/except blocks. -/
inductive CacheFault where
  | store (msg : String)
  | wrongType
  | badPayload
deriving DecidableEq

/-- The async Redis client operations the cache service invokes, over an abstract
store state.  Each call returns a result or a fault, together with the state the
store is left in; an arbitrary instance may fault at any point, while the healthy
functional instance defined below never does. -/
structure RedisOps (σ : Type) where
  get : String → σ → Except CacheFault (Option JsonVal) × σ
  setex : String → Nat → JsonVal → σ → Except CacheFault Unit × σ
  hset : String → String → Option Emb → σ → Except CacheFault Unit × σ
  expire : String → Nat → σ → Except CacheFault Unit × σ
  keysOp : String → σ → Except CacheFault (List String) × σ
  hgetall : String → σ → Except CacheFault (Option (String × Option Emb)) × σ
  del : List String → σ → Except CacheFault Nat × σ

/-- The service's TTL for general searches (`self.default_ttl`, one hour). -/
def defaultTtl : Nat := 3600

/-- The service's TTL for educational searches (`self.educational_ttl`, two hours). -/
def educationalTtl : Nat := 7200

/-- The similarity threshold 0.8 (`self.similarity_threshold`) as the exact
rational with numerator 4 and denominator 5, given by its normal form so that
comparisons against it compute. -/
def similarityThreshold : ℚ := ⟨4, 5, by decide, by decide⟩

theorem neg_one_lt_similarityThreshold : (-1 : ℚ) < similarityThreshold := by
  rw [show similarityThreshold = ⟨4, 5, by decide, by decide⟩ from rfl]
  decide

theorem similarityThreshold_eq : similarityThreshold = 4 / 5 := by
  rw [similarityThreshold, Rat.mk'_eq_divInt, Rat.divInt_eq_div]
  norm_num

/-- Embeds `YouTubeCacheService._store_embedding`: computes the query embedding,
writes the hash fields (the lowercased, stripped query text and the embedding)
under the derived `key:meta`, then sets that meta key's TTL. -/
def storeEmbedding {σ : Type} (ops : RedisOps σ) (enc : String → Emb)
    (query cacheKey : String) (ttl : Nat) (s : σ) : Except CacheFault Unit × σ :=
  match ops.hset (cacheKey ++ ":meta") (pyNormQuery query) (some (enc query)) s with
  | (.error f, s1) => (.error f, s1)
  | (.ok _, s1) => ops.expire (cacheKey ++ ":meta") ttl s1

/-- The best-match accumulator loop of `_find_similar_query`: for each meta key,
read its hash; skip empty hashes and hashes lacking an embedding field; otherwise
update the best entry exactly when the cosine similarity strictly exceeds the best
score so far — so the first entry at the maximum score is the one kept. -/
def simLoop {σ : Type} (ops : RedisOps σ) (cosSim : Emb → Emb → ℚ) (qEmb : Emb) :
    List String → Option String → ℚ → σ → Except CacheFault (Option String × ℚ) × σ
  | [], bestK, bestS, s => (.ok (bestK, bestS), s)
  | k :: ks, bestK, bestS, s =>
    match ops.hgetall k s with
    | (.error f, s1) => (.error f, s1)
    | (.ok none, s1) => simLoop ops cosSim qEmb ks bestK bestS s1
    | (.ok (some (_, none)), s1) => simLoop ops cosSim qEmb ks bestK bestS s1
    | (.ok (some (_, some emb)), s1) =>
      let sim := cosSim qEmb emb
      if bestS < sim then simLoop ops cosSim qEmb ks (some k) sim s1
      else simLoop ops cosSim qEmb ks bestK bestS s1

/-- Left-to-right removal of every non-overlapping occurrence of the character
sequence `:meta`, which is what Python's `replace(":meta", "")` performs. -/
def stripMetaChars : List Char → List Char
  | ':' :: 'm' :: 'e' :: 't' :: 'a' :: rest => stripMetaChars rest
  | c :: rest => c :: stripMetaChars rest
  | [] => []

/-- Strips the meta suffix exactly as `best_key.decode().replace(":meta", "")`
does: every occurrence of the substring is removed. -/
def stripMeta (k : String) : String :=
  String.mk (stripMetaChars k.data)

/-- Embeds `YouTubeCacheService._find_similar_query`: list all meta keys under the
namespace, embed the query, scan every stored embedding keeping the best strict
improvement, and return the stripped best key only when its score reaches the
similarity threshold. -/
def findSimilarQuery {σ : Type} (ops : RedisOps σ) (enc : String → Emb)
    (cosSim : Emb → Emb → ℚ) (query : String) (s : σ) :
    Except CacheFault (Option String) × σ :=
  match ops.keysOp (prefixStr ++ ":*:meta") s with
  | (.error f, s1) => (.error f, s1)
  | (.ok metaKeys, s1) =>
    if metaKeys.isEmpty then (.ok none, s1)
    else
      let qEmb := enc query
      match simLoop ops cosSim qEmb metaKeys none (-1) s1 with
      | (.error f, s2) => (.error f, s2)
      | (.ok (bestK, bestS), s2) =>
        match bestK with
        | some k =>
          if similarityThreshold ≤ bestS then (.ok (some (stripMeta k)), s2)
          else (.ok none, s2)
        | none => (.ok none, s2)

/-- The body of `get_cached_search` inside its try block: exact-match lookup first
(a present payload that fails validation raises, which the wrapper below turns
into a miss), then the semantic-similarity fallback. -/
def getCachedSearchBody {σ : Type} (ops : RedisOps σ) (md5hex : String → String)
    (enc : String → Emb) (cosSim : Emb → Emb → ℚ) (query : String) (maxResults : Int)
    (pageToken : Option String) (order : String) (isEducational : Bool) (s : σ) :
    Except CacheFault (Option YouTubeSearchResponse) × σ :=
  let cacheKey := generateCacheKey md5hex query maxResults pageToken order isEducational
  match ops.get cacheKey s with
  | (.error f, s1) => (.error f, s1)
  | (.ok (some cachedData), s1) =>
    match loadResponse cachedData with
    | some r => (.ok (some r), s1)
    | none => (.error .badPayload, s1)
  | (.ok none, s1) =>
    match findSimilarQuery ops enc cosSim query s1 with
    | (.error f, s2) => (.error f, s2)
    | (.ok (some similarKey), s2) =>
      match ops.get similarKey s2 with
      | (.error f, s3) => (.error f, s3)
      | (.ok (some cachedData), s3) =>
        match loadResponse cachedData with
        | some r => (.ok (some r), s3)
        | none => (.error .badPayload, s3)
      | (.ok none, s3) => (.ok none, s3)
    | (.ok none, s2) => (.ok none, s2)

/-- The public `get_cached_search`: its whole body runs inside try/except, and any
exception is logged and turned into a cache miss (None). -/
def getCachedSearchRun {σ : Type} (ops : RedisOps σ) (md5hex : String → String)
    (enc : String → Emb) (cosSim : Emb → Emb → ℚ) (query : String) (maxResults : Int)
    (pageToken : Option String) (order : String) (isEducational : Bool) (s : σ) :
    Option YouTubeSearchResponse × σ :=
  match getCachedSearchBody ops md5hex enc cosSim query maxResults pageToken order
      isEducational s with
  | (.ok v, s1) => (v, s1)
  | (.error _, s1) => (none, s1)

/-- The body of `cache_search_results` inside its try block: derive the key,
serialize the response, pick the TTL by category, write the payload with that TTL,
then store the query embedding under the same TTL. -/
def cacheSearchResultsBody {σ : Type} (ops : RedisOps σ) (md5hex : String → String)
    (enc : String → Emb) (query : String) (maxResults : Int) (pageToken : Option String)
    (order : String) (results : YouTubeSearchResponse) (isEducational : Bool) (s : σ) :
    Except CacheFault Unit × σ :=
  let cacheKey := generateCacheKey md5hex query maxResults pageToken order isEducational
  let cacheData := dumpResponse results
  let ttl := if isEducational then educationalTtl else defaultTtl
  match ops.setex cacheKey ttl cacheData s with
  | (.error f, s1) => (.error f, s1)
  | (.ok _, s1) => storeEmbedding ops enc query cacheKey ttl s1

/-- The public `cache_search_results`: the body runs inside try/except and the
function always returns None — a fault is logged and swallowed, leaving the store
wherever the failing call left it. -/
def cacheSearchResultsRun {σ : Type} (ops : RedisOps σ) (md5hex : String → String)
    (enc : String → Emb) (query : String) (maxResults : Int) (pageToken : Option String)
    (order : String) (results : YouTubeSearchResponse) (isEducational : Bool) (s : σ) : σ :=
  (cacheSearchResultsBody ops md5hex enc query maxResults pageToken order results
    isEducational s).2

/-- The body of `invalidate_search_cache` inside its try block: list keys under the
requested pattern (a falsy pattern selects the whole namespace) and delete them;
nothing to delete means 0. -/
def invalidateSearchCacheBody {σ : Type} (ops : RedisOps σ) (pattern : Option String)
    (s : σ) : Except CacheFault Nat × σ :=
  let searchPattern :=
    match pattern with
    | some p => if p = "" then prefixStr ++ ":*" else prefixStr ++ ":" ++ p ++ ":*"
    | none => prefixStr ++ ":*"
  match ops.keysOp searchPattern s with
  | (.error f, s1) => (.error f, s1)
  | (.ok ks, s1) =>
    if ks.isEmpty then (.ok 0, s1)
    else ops.del ks s1

/-- The public `invalidate_search_cache`: any exception is logged and the function
returns 0. -/
def invalidateSearchCacheRun {σ : Type} (ops : RedisOps σ) (pattern : Option String)
    (s : σ) : Nat × σ :=
  match invalidateSearchCacheBody ops pattern s with
  | (.ok n, s1) => (n, s1)
  | (.error _, s1) => (0, s1)

/-- The statistics record `get_cache_stats` assembles. -/
structure CacheStats where
  total_cached_searches : Nat
  regular_searches : Nat
  educational_searches : Nat
  cache_prefix : String
deriving DecidableEq

/-- The body of `get_cache_stats` inside its try block: count all keys under the
`search` category pattern and all keys under the `edu` category pattern. -/
def getCacheStatsBody {σ : Type} (ops : RedisOps σ) (s : σ) :
    Except CacheFault CacheStats × σ :=
  match ops.keysOp (prefixStr ++ ":search:*") s with
  | (.error f, s1) => (.error f, s1)
  | (.ok searchKeys, s1) =>
    match ops.keysOp (prefixStr ++ ":edu:*") s1 with
    | (.error f, s2) => (.error f, s2)
    | (.ok eduKeys, s2) =>
      (.ok ⟨searchKeys.length + eduKeys.length, searchKeys.length, eduKeys.length,
        prefixStr⟩, s2)

/-- The public `get_cache_stats`: a fault yields an error payload instead of the
statistics record, modelled as None. -/
def getCacheStatsRun {σ : Type} (ops : RedisOps σ) (s : σ) : Option CacheStats × σ :=
  match getCacheStatsBody ops s with
  | (.ok st, s1) => (some st, s1)
  | (.error _, s1) => (none, s1)

/-- C4.  Every fault raised by the underlying store during a cache operation is
absorbed by that operation's try/except and never propagates: a faulting
`get_cached_search` returns None (a miss), `cache_search_results` always returns
normally (its only outcome is the store state the body reached), and a faulting
`invalidate_search_cache` returns 0. -/
theorem cacheOps_absorb_faults {σ : Type} (ops : RedisOps σ) (md5hex : String → String)
    (enc : String → Emb) (cosSim : Emb → Emb → ℚ) (q : String) (mr : Int)
    (pt : Option String) (ord : String) (edu : Bool) (r : YouTubeSearchResponse)
    (pat : Option String) (s : σ) :
    (∀ f s', getCachedSearchBody ops md5hex enc cosSim q mr pt ord edu s = (.error f, s') →
      getCachedSearchRun ops md5hex enc cosSim q mr pt ord edu s = (none, s')) ∧
    cacheSearchResultsRun ops md5hex enc q mr pt ord r edu s =
      (cacheSearchResultsBody ops md5hex enc q mr pt ord r edu s).2 ∧
    (∀ f s', invalidateSearchCacheBody ops pat s = (.error f, s') →
      invalidateSearchCacheRun ops pat s = (0, s')) := by
  refine ⟨?_, rfl, ?_⟩
  · intro f s' h
    unfold getCachedSearchRun
    rw [h]
  · intro f s' h
    unfold invalidateSearchCacheRun
    rw [h]

/-- A store client whose every call faults with a connection error. -/
def faultyOps : RedisOps Unit where
  get _ _ := (.error (.store "connection refused"), ())
  setex _ _ _ _ := (.error (.store "connection refused"), ())
  hset _ _ _ _ := (.error (.store "connection refused"), ())
  expire _ _ _ := (.error (.store "connection refused"), ())
  keysOp _ _ := (.error (.store "connection refused"), ())
  hgetall _ _ := (.error (.store "connection refused"), ())
  del _ _ := (.error (.store "connection refused"), ())

/-- A trivial embedding model for concrete instantiations. -/
def encZero : String → Emb := fun _ => []

/-- A constant similarity oracle for concrete instantiations. -/
def cosOne : Emb → Emb → ℚ := fun _ _ => 1

/-- Witness for C4 against the all-faulting client: the lookup degrades to a miss
and the invalidation to a count of 0, with no propagated exception. -/
theorem cacheOps_absorb_faults_witness :
    getCachedSearchRun faultyOps (fun s => s) encZero cosOne "python" 20 none
        "relevance" false () = (none, ()) ∧
      invalidateSearchCacheRun faultyOps (some "edu") () = (0, ()) :=
  ⟨(cacheOps_absorb_faults faultyOps (fun s => s) encZero cosOne "python" 20 none
      "relevance" false ⟨[], 0, none⟩ (some "edu") ()).1
      (.store "connection refused") () rfl,
   (cacheOps_absorb_faults faultyOps (fun s => s) encZero cosOne "python" 20 none
      "relevance" false ⟨[], 0, none⟩ (some "edu") ()).2.2
      (.store "connection refused") () rfl⟩

/-! ### A healthy functional store

The Redis store itself, for runs in which it stays reachable: string keys hold
serialized payloads with their TTL, hash keys hold embedding metadata with an
optional TTL (HSET leaves the TTL untouched, EXPIRE sets it). -/

/-- Redis KEYS glob matching for the patterns this service issues (literal
characters and the `*` wildcard; the service never uses `?` or classes), with
explicit fuel so the definition is structural; `globMatch` supplies fuel that is
always sufficient. -/
def globMatchAux : Nat → List Char → List Char → Bool
  | 0, _, _ => false
  | fuel + 1, p, s =>
    match p with
    | [] => s.isEmpty
    | pc :: ps =>
      if pc = '*' then
        match s with
        | [] => globMatchAux fuel ps []
        | c :: cs => globMatchAux fuel ps (c :: cs) || globMatchAux fuel (pc :: ps) cs
      else
        match s with
        | [] => false
        | c :: cs => pc == c && globMatchAux fuel ps cs

/-- Glob matching with its canonical, always-sufficient fuel. -/
def globMatch (p s : List Char) : Bool :=
  globMatchAux (p.length + s.length + 1) p s

/-- Glob matching on strings. -/
def globMatchS (pat s : String) : Bool :=
  globMatch pat.data s.data

/-- The fields `_store_embedding` writes under a meta key: the normalized query
text and the embedding blob (other writers may omit the embedding field). -/
structure HashVal where
  query : String
  emb : Option Emb

/-- A healthy Redis store: an association list of string keys (payload, TTL) and
one of hash keys (fields, optional TTL). -/
structure RedisState where
  strs : List (String × JsonVal × Nat)
  hashes : List (String × HashVal × Option Nat)

/-- First-match association lookup. -/
def alookup {α : Type} (k : String) : List (String × α) → Option α
  | [] => none
  | (k', v) :: rest => if k' = k then some v else alookup k rest

/-- Replace-or-append association update (SET semantics). -/
def ainsert {α : Type} (k : String) (v : α) : List (String × α) → List (String × α)
  | [] => [(k, v)]
  | (k', v') :: rest => if k' = k then (k, v) :: rest else (k', v') :: ainsert k v rest

/-- Remove a key (a SET of a different kind deletes the previous value). -/
def eraseKey {α : Type} (k : String) (l : List (String × α)) : List (String × α) :=
  l.filter (fun e => !(e.1 == k))

/-- HSET semantics on the hash table: replace the fields, keep the TTL; a fresh
key starts with no TTL. -/
def hsetA (k : String) (hv : HashVal) :
    List (String × HashVal × Option Nat) → List (String × HashVal × Option Nat)
  | [] => [(k, hv, none)]
  | (k', v', t') :: rest =>
    if k' = k then (k, hv, t') :: rest else (k', v', t') :: hsetA k hv rest

/-- EXPIRE semantics on the hash table: set the TTL of the key if present.  The
service only ever expires a key it just HSET, so the string table needs no case. -/
def expireA (k : String) (ttl : Nat) (l : List (String × HashVal × Option Nat)) :
    List (String × HashVal × Option Nat) :=
  l.map (fun e => if e.1 = k then (e.1, e.2.1, some ttl) else e)

/-- The healthy client: never a store fault; WRONGTYPE faults exactly where Redis
raises them (a read of a key holding the other kind of value); KEYS enumerates
string keys then hash keys in insertion order. -/
def healthyOps : RedisOps RedisState where
  get k st :=
    if (alookup k st.hashes).isSome then (.error .wrongType, st)
    else (.ok ((alookup k st.strs).map (fun v => v.1)), st)
  setex k ttl v st :=
    (.ok (), ⟨ainsert k (v, ttl) st.strs, eraseKey k st.hashes⟩)
  hset k q e st :=
    if (alookup k st.strs).isSome then (.error .wrongType, st)
    else (.ok (), ⟨st.strs, hsetA k ⟨q, e⟩ st.hashes⟩)
  expire k ttl st := (.ok (), ⟨st.strs, expireA k ttl st.hashes⟩)
  keysOp pat st :=
    (.ok ((st.strs.map (fun e => e.1) ++ st.hashes.map (fun e => e.1)).filter
      (fun k => globMatchS pat k)), st)
  hgetall k st :=
    if (alookup k st.strs).isSome then (.error .wrongType, st)
    else (.ok ((alookup k st.hashes).map (fun h => (h.1.query, h.1.emb))), st)
  del ks st :=
    (.ok (ks.filter (fun k =>
        (alookup k st.strs).isSome || (alookup k st.hashes).isSome)).length,
      ⟨st.strs.filter (fun e => !(ks.contains e.1)),
        st.hashes.filter (fun e => !(ks.contains e.1))⟩)

theorem alookup_ainsert {α : Type} (k : String) (v : α) (l : List (String × α)) :
    alookup k (ainsert k v l) = some v := by
  induction l with
  | nil => simp [ainsert, alookup]
  | cons e rest ih =>
    obtain ⟨k', v'⟩ := e
    by_cases h : k' = k
    · simp [ainsert, alookup, h]
    · simp [ainsert, alookup, h, ih]

theorem alookup_ainsert_ne {α : Type} (k k' : String) (v : α) (l : List (String × α))
    (h : k' ≠ k) : alookup k' (ainsert k v l) = alookup k' l := by
  have h' : ¬ k = k' := fun hh => h hh.symm
  induction l with
  | nil => simp [ainsert, alookup, h']
  | cons e rest ih =>
    obtain ⟨k0, v0⟩ := e
    by_cases h0 : k0 = k
    · subst h0
      simp [ainsert, alookup, h']
    · simp [ainsert, alookup, h0, ih]

theorem alookup_eraseKey {α : Type} (k : String) (l : List (String × α)) :
    alookup k (eraseKey k l) = none := by
  induction l with
  | nil => rfl
  | cons e rest ih =>
    obtain ⟨k0, v0⟩ := e
    by_cases h0 : k0 = k
    · simpa [eraseKey, List.filter_cons, h0] using ih
    · simpa [eraseKey, List.filter_cons, h0, alookup] using ih

theorem alookup_hsetA_ne (k k' : String) (hv : HashVal)
    (l : List (String × HashVal × Option Nat)) (h : k' ≠ k) :
    alookup k' (hsetA k hv l) = alookup k' l := by
  have h' : ¬ k = k' := fun hh => h hh.symm
  induction l with
  | nil => simp [hsetA, alookup, h']
  | cons e rest ih =>
    obtain ⟨k0, v0⟩ := e
    by_cases h0 : k0 = k
    · subst h0
      simp [hsetA, alookup, h']
    · simp [hsetA, alookup, h0, ih]

theorem alookup_expireA_ne (k k' : String) (ttl : Nat)
    (l : List (String × HashVal × Option Nat)) (h : k' ≠ k) :
    alookup k' (expireA k ttl l) = alookup k' l := by
  have h' : ¬ k = k' := fun hh => h hh.symm
  induction l with
  | nil => rfl
  | cons e rest ih =>
    obtain ⟨k0, v0⟩ := e
    simp only [expireA, List.map_cons] at ih ⊢
    by_cases h0 : k0 = k
    · subst h0
      rw [show (if ((k0, v0) : String × HashVal × Option Nat).1 = k0 then
          (k0, v0.1, some ttl) else (k0, v0)) = (k0, v0.1, some ttl) from by simp]
      simp [alookup, h', ih]
    · rw [show (if ((k0, v0) : String × HashVal × Option Nat).1 = k then
          (k0, v0.1, some ttl) else (k0, v0)) = (k0, v0) from by simp [h0]]
      simp [alookup, ih]

theorem alookup_expireA_hsetA (k : String) (hv : HashVal) (ttl : Nat)
    (l : List (String × HashVal × Option Nat)) :
    alookup k (expireA k ttl (hsetA k hv l)) = some (hv, some ttl) := by
  induction l with
  | nil =>
    simp only [hsetA, expireA, List.map_cons, List.map_nil]
    simp [alookup]
  | cons e rest ih =>
    obtain ⟨k0, v0⟩ := e
    by_cases h0 : k0 = k
    · subst h0
      simp only [hsetA, eq_self_iff_true, if_true]
      have hf : expireA k0 ttl ((k0, hv, v0.2) :: rest) =
          (k0, hv, some ttl) :: expireA k0 ttl rest := by
        simp [expireA]
      rw [hf]
      simp [alookup]
    · simp only [hsetA, if_neg h0, expireA, List.map_cons] at ih ⊢
      simp [alookup, h0, ih]

theorem key_ne_meta (k : String) : k ≠ k ++ ":meta" := by
  intro h
  have hlen := congrArg String.length h
  rw [String.length_append] at hlen
  have h5 : (":meta" : String).length = 5 := rfl
  omega

theorem healthy_get (k : String) (st : RedisState) :
    healthyOps.get k st =
      (if (alookup k st.hashes).isSome then (.error .wrongType, st)
       else (.ok ((alookup k st.strs).map (fun v => v.1)), st)) := rfl

theorem healthy_setex (k : String) (ttl : Nat) (v : JsonVal) (st : RedisState) :
    healthyOps.setex k ttl v st =
      (.ok (), ⟨ainsert k (v, ttl) st.strs, eraseKey k st.hashes⟩) := rfl

theorem healthy_hset (k q : String) (e : Option Emb) (st : RedisState) :
    healthyOps.hset k q e st =
      (if (alookup k st.strs).isSome then (.error .wrongType, st)
       else (.ok (), ⟨st.strs, hsetA k ⟨q, e⟩ st.hashes⟩)) := rfl

theorem healthy_expire (k : String) (ttl : Nat) (st : RedisState) :
    healthyOps.expire k ttl st = (.ok (), ⟨st.strs, expireA k ttl st.hashes⟩) := rfl

theorem healthy_keysOp (pat : String) (st : RedisState) :
    healthyOps.keysOp pat st =
      (.ok ((st.strs.map (fun e => e.1) ++ st.hashes.map (fun e => e.1)).filter
        (fun k => globMatchS pat k)), st) := rfl

theorem healthy_hgetall (k : String) (st : RedisState) :
    healthyOps.hgetall k st =
      (if (alookup k st.strs).isSome then (.error .wrongType, st)
       else (.ok ((alookup k st.hashes).map (fun h => (h.1.query, h.1.emb))), st)) := rfl

/-- After `cache_search_results` runs against the healthy store (whether or not the
embedding write inside it succeeded), the payload sits under the derived key with
the category TTL, and the derived key holds no hash value. -/
theorem cacheRun_state_facts (md5hex : String → String) (enc : String → Emb)
    (q : String) (mr : Int) (pt : Option String) (ord : String)
    (r : YouTubeSearchResponse) (edu : Bool) (st : RedisState) :
    alookup (generateCacheKey md5hex q mr pt ord edu)
        (cacheSearchResultsRun healthyOps md5hex enc q mr pt ord r edu st).strs =
      some (dumpResponse r, if edu then educationalTtl else defaultTtl) ∧
    alookup (generateCacheKey md5hex q mr pt ord edu)
        (cacheSearchResultsRun healthyOps md5hex enc q mr pt ord r edu st).hashes =
      none := by
  unfold cacheSearchResultsRun cacheSearchResultsBody
  dsimp only
  rw [healthy_setex]
  dsimp only
  unfold storeEmbedding
  rw [healthy_hset]
  by_cases hc : (alookup (generateCacheKey md5hex q mr pt ord edu ++ ":meta")
      (ainsert (generateCacheKey md5hex q mr pt ord edu)
        (dumpResponse r, if edu then educationalTtl else defaultTtl) st.strs)).isSome
  · rw [if_pos hc]
    dsimp only
    exact ⟨alookup_ainsert _ _ _, alookup_eraseKey _ _⟩
  · rw [if_neg hc]
    dsimp only
    rw [healthy_expire]
    dsimp only
    refine ⟨alookup_ainsert _ _ _, ?_⟩
    rw [alookup_expireA_ne _ _ _ _ (key_ne_meta _), alookup_hsetA_ne _ _ _ _ (key_ne_meta _)]
    exact alookup_eraseKey _ _

/-- C7.  Every successful `cache_search_results` write stores the payload with a
TTL of 7200 seconds when the search is educational and 3600 seconds otherwise, and
stores the embedding metadata under `key:meta` with exactly the same TTL, so the
two expire together. -/
theorem cacheWrite_ttl_policy (md5hex : String → String) (enc : String → Emb)
    (q : String) (mr : Int) (pt : Option String) (ord : String)
    (r : YouTubeSearchResponse) (edu : Bool) (st st' : RedisState)
    (h : cacheSearchResultsBody healthyOps md5hex enc q mr pt ord r edu st =
      (Except.ok (), st')) :
    alookup (generateCacheKey md5hex q mr pt ord edu) st'.strs =
      some (dumpResponse r, if edu then educationalTtl else defaultTtl) ∧
    alookup (generateCacheKey md5hex q mr pt ord edu ++ ":meta") st'.hashes =
      some (⟨pyNormQuery q, some (enc q)⟩,
        some (if edu then educationalTtl else defaultTtl)) := by
  unfold cacheSearchResultsBody at h
  dsimp only at h
  rw [healthy_setex] at h
  dsimp only at h
  unfold storeEmbedding at h
  rw [healthy_hset] at h
  by_cases hc : (alookup (generateCacheKey md5hex q mr pt ord edu ++ ":meta")
      (ainsert (generateCacheKey md5hex q mr pt ord edu)
        (dumpResponse r, if edu then educationalTtl else defaultTtl) st.strs)).isSome
  · rw [if_pos hc] at h
    dsimp only at h
    exact absurd h (by simp)
  · rw [if_neg hc] at h
    dsimp only at h
    rw [healthy_expire] at h
    dsimp only at h
    have hst : st' = ⟨ainsert (generateCacheKey md5hex q mr pt ord edu)
        (dumpResponse r, if edu then educationalTtl else defaultTtl) st.strs,
        expireA (generateCacheKey md5hex q mr pt ord edu ++ ":meta")
          (if edu then educationalTtl else defaultTtl)
          (hsetA (generateCacheKey md5hex q mr pt ord edu ++ ":meta")
            ⟨pyNormQuery q, some (enc q)⟩
            (eraseKey (generateCacheKey md5hex q mr pt ord edu) st.hashes))⟩ := by
      have := congrArg Prod.snd h
      exact this.symm
    subst hst
    exact ⟨alookup_ainsert _ _ _, alookup_expireA_hsetA _ _ _ _⟩

/-- Witness for C7: a concrete educational write into the empty store succeeds and
both the payload and its metadata carry the 7200-second TTL. -/
theorem cacheWrite_ttl_policy_witness :
    alookup (generateCacheKey (fun s => s) "python" 20 none "relevance" true)
        (cacheSearchResultsRun healthyOps (fun s => s) encZero "python" 20 none
          "relevance" ⟨[], 0, none⟩ true ⟨[], []⟩).strs =
      some (dumpResponse ⟨[], 0, none⟩, if true then educationalTtl else defaultTtl) ∧
    alookup (generateCacheKey (fun s => s) "python" 20 none "relevance" true ++ ":meta")
        (cacheSearchResultsRun healthyOps (fun s => s) encZero "python" 20 none
          "relevance" ⟨[], 0, none⟩ true ⟨[], []⟩).hashes =
      some (⟨pyNormQuery "python", some (encZero "python")⟩,
        some (if true then educationalTtl else defaultTtl)) :=
  cacheWrite_ttl_policy (fun s => s) encZero "python" 20 none "relevance"
    ⟨[], 0, none⟩ true ⟨[], []⟩ _ rfl

/-- C5.  Storing a response and immediately retrieving it under the same normalized
parameters against the healthy store returns exactly the stored response (the
exact-match branch hits, whatever the rest of the store holds), and the pydantic
serialization itself round-trips exactly. -/
theorem cache_set_get_roundTrip (md5hex : String → String) (enc : String → Emb)
    (cosSim : Emb → Emb → ℚ) (q q' : String) (mr : Int) (pt pt' : Option String)
    (ord : String) (edu : Bool) (r : YouTubeSearchResponse) (st : RedisState)
    (hq : pyNormQuery q = pyNormQuery q') (hp : pt.getD "" = pt'.getD "") :
    (getCachedSearchRun healthyOps md5hex enc cosSim q' mr pt' ord edu
        (cacheSearchResultsRun healthyOps md5hex enc q mr pt ord r edu st)).1 =
      some r ∧
    loadResponse (dumpResponse r) = some r := by
  refine ⟨?_, loadResponse_dumpResponse r⟩
  have hkey : generateCacheKey md5hex q' mr pt' ord edu =
      generateCacheKey md5hex q mr pt ord edu :=
    ((generateCacheKey_normalized md5hex q q' mr pt pt' ord edu hq hp).1).symm
  obtain ⟨hstrs, hhash⟩ := cacheRun_state_facts md5hex enc q mr pt ord r edu st
  simp only [getCachedSearchRun, getCachedSearchBody, hkey]
  rw [healthy_get, hhash]
  rw [if_neg (by simp)]
  rw [hstrs]
  simp [loadResponse_dumpResponse r]

/-- Witness for C5: writing a one-video response under a raw query and reading it
back under the normalized query (absent versus empty page token) returns the same
response. -/
theorem cache_set_get_roundTrip_witness :
    (getCachedSearchRun healthyOps (fun s => s) encZero cosOne "python" 20 (some "")
        "relevance" false
        (cacheSearchResultsRun healthyOps (fun s => s) encZero "  Python " 20 none
          "relevance" ⟨[⟨"v1", "t", "d", "u", "c", "p", some "4:13", none⟩], 1, none⟩
          false ⟨[], []⟩)).1 =
      some ⟨[⟨"v1", "t", "d", "u", "c", "p", some "4:13", none⟩], 1, none⟩ ∧
    loadResponse (dumpResponse ⟨[⟨"v1", "t", "d", "u", "c", "p", some "4:13", none⟩], 1, none⟩) =
      some ⟨[⟨"v1", "t", "d", "u", "c", "p", some "4:13", none⟩], 1, none⟩ :=
  cache_set_get_roundTrip (fun s => s) encZero cosOne "  Python " "python" 20 none
    (some "") "relevance" false _ ⟨[], []⟩ (by decide) (by decide)

/-! ### Functional specification of the similarity lookup (C2) -/

/-- The similarity scores of the live embedding entries, in enumeration order;
entries lacking an embedding are skipped. -/
def scoredOf (cosSim : Emb → Emb → ℚ) (qEmb : Emb)
    (entries : List (String × Option Emb)) : List (String × ℚ) :=
  entries.filterMap (fun p => p.2.map (fun e => (p.1, cosSim qEmb e)))

/-- The maximum similarity score among the scored entries. -/
def maxScore : List (String × ℚ) → Option ℚ
  | [] => none
  | p :: rest =>
    match maxScore rest with
    | none => some p.2
    | some m => some (max p.2 m)

/-- The claim's description of the similarity lookup: the key of the first entry
whose score equals the maximum similarity, stripped of its meta suffix, returned
only when that maximum reaches the threshold; none when nothing is scored. -/
def findSimilarSpec (cosSim : Emb → Emb → ℚ) (qEmb : Emb)
    (entries : List (String × Option Emb)) : Option String :=
  match maxScore (scoredOf cosSim qEmb entries) with
  | none => none
  | some m =>
    if similarityThreshold ≤ m then
      match (scoredOf cosSim qEmb entries).find? (fun p => p.2 == m) with
      | some p => some (stripMeta p.1)
      | none => none
    else none

/-- The pure content of the service's accumulator loop, over already-scored
entries. -/
def simFoldPure : List (String × ℚ) → Option String → ℚ → Option String × ℚ
  | [], bk, bs => (bk, bs)
  | (k, sc) :: rest, bk, bs =>
    if bs < sc then simFoldPure rest (some k) sc else simFoldPure rest bk bs

theorem maxScore_eq_none (l : List (String × ℚ)) : maxScore l = none ↔ l = [] := by
  cases l with
  | nil => simp [maxScore]
  | cons p rest =>
    simp only [maxScore]
    cases maxScore rest <;> simp

theorem maxScore_le (l : List (String × ℚ)) (m : ℚ) (hm : maxScore l = some m) :
    ∀ p ∈ l, p.2 ≤ m := by
  induction l generalizing m with
  | nil => simp
  | cons p rest ih =>
    simp only [maxScore] at hm
    cases hr : maxScore rest with
    | none =>
      rw [hr] at hm
      obtain rfl : p.2 = m := by injection hm
      have : rest = [] := (maxScore_eq_none rest).1 hr
      subst this
      simp
    | some m' =>
      rw [hr] at hm
      obtain rfl : max p.2 m' = m := by injection hm
      intro q hq
      rcases List.mem_cons.1 hq with h | h
      · subst h
        exact le_max_left _ _
      · exact le_trans (ih m' hr q h) (le_max_right _ _)

theorem simFoldPure_below (l : List (String × ℚ)) (bk : Option String) (bs : ℚ)
    (h : ∀ p ∈ l, p.2 ≤ bs) : simFoldPure l bk bs = (bk, bs) := by
  induction l with
  | nil => rfl
  | cons p rest ih =>
    obtain ⟨k0, sc⟩ := p
    have hsc : sc ≤ bs := h (k0, sc) (by simp)
    simp only [simFoldPure, if_neg (not_lt.2 hsc)]
    exact ih (fun q hq => h q (by simp [hq]))

theorem simFoldPure_max (l : List (String × ℚ)) :
    ∀ (bk : Option String) (bs m : ℚ), maxScore l = some m → bs < m →
      ∃ k, l.find? (fun p => p.2 == m) = some (k, m) ∧
        simFoldPure l bk bs = (some k, m) := by
  induction l with
  | nil => intro bk bs m hm; simp [maxScore] at hm
  | cons p rest ih =>
    intro bk bs m hm hlt
    obtain ⟨k0, sc⟩ := p
    simp only [maxScore] at hm
    cases hr : maxScore rest with
    | none =>
      rw [hr] at hm
      obtain rfl : sc = m := by injection hm
      have hrest : rest = [] := (maxScore_eq_none rest).1 hr
      subst hrest
      refine ⟨k0, ?_, ?_⟩
      · simp [List.find?]
      · simp [simFoldPure, if_pos hlt]
    | some m' =>
      rw [hr] at hm
      obtain rfl : max sc m' = m := by injection hm
      by_cases hcmp : m' ≤ sc
      · rw [max_eq_left hcmp] at hlt ⊢
        refine ⟨k0, ?_, ?_⟩
        · simp [List.find?]
        · simp only [simFoldPure, if_pos hlt]
          exact simFoldPure_below rest (some k0) sc
            (fun q hq => le_trans (maxScore_le rest m' hr q hq) hcmp)
      · push_neg at hcmp
        rw [max_eq_right (le_of_lt hcmp)] at hlt ⊢
        have hne : (sc == m') = false := by
          simp [ne_of_lt hcmp]
        by_cases hbs : bs < sc
        · obtain ⟨k, hfind, hfold⟩ := ih (some k0) sc m' hr hcmp
          refine ⟨k, ?_, ?_⟩
          · simp only [List.find?, hne]
            exact hfind
          · simp only [simFoldPure, if_pos hbs]
            exact hfold
        · obtain ⟨k, hfind, hfold⟩ := ih bk bs m' hr hlt
          refine ⟨k, ?_, ?_⟩
          · simp only [List.find?, hne]
            exact hfind
          · simp only [simFoldPure, if_neg hbs]
            exact hfold

/-- Well-formedness of a healthy store for the similarity claims: no payload key
looks like a meta key, hash keys never collide with payload keys, and hash keys
are unique. -/
def WFState (st : RedisState) : Prop :=
  (∀ k ∈ st.strs.map (fun e => e.1),
    globMatchS (prefixStr ++ ":*:meta") k = false) ∧
  (∀ k ∈ st.hashes.map (fun e => e.1), alookup k st.strs = none) ∧
  (st.hashes.map (fun e => e.1)).Nodup

/-- The live embedding entries of a healthy store, in enumeration order. -/
def metaEntries (st : RedisState) : List (String × Option Emb) :=
  st.hashes.filterMap (fun e =>
    if globMatchS (prefixStr ++ ":*:meta") e.1 then some (e.1, e.2.1.emb) else none)

theorem alookup_cons_ne {α : Type} (k k0 : String) (v : α) (l : List (String × α))
    (h : k0 ≠ k) : alookup k ((k0, v) :: l) = alookup k l := by
  simp [alookup, h]

theorem listFilterMapCongr {α β : Type} (f g : α → Option β) (l : List α)
    (h : ∀ a ∈ l, f a = g a) : l.filterMap f = l.filterMap g := by
  induction l with
  | nil => rfl
  | cons a rest ih =>
    rw [List.filterMap_cons, List.filterMap_cons, h a (by simp),
      ih (fun b hb => h b (by simp [hb]))]

theorem simLoop_healthy (cosSim : Emb → Emb → ℚ) (qEmb : Emb) (ks : List String)
    (bk : Option String) (bs : ℚ) (st : RedisState)
    (hks : ∀ k ∈ ks, alookup k st.strs = none) :
    simLoop healthyOps cosSim qEmb ks bk bs st =
      (.ok (simFoldPure (scoredOf cosSim qEmb (ks.filterMap (fun k =>
        (alookup k st.hashes).map (fun hv => (k, hv.1.emb))))) bk bs), st) := by
  induction ks generalizing bk bs with
  | nil => rfl
  | cons k rest ih =>
    have hk : alookup k st.strs = none := hks k (by simp)
    have hrest : ∀ k' ∈ rest, alookup k' st.strs = none :=
      fun k' hk' => hks k' (by simp [hk'])
    simp only [simLoop, healthy_hgetall, hk, Option.isSome_none, Bool.false_eq_true,
      if_false]
    cases hh : alookup k st.hashes with
    | none =>
      simp only [Option.map_none']
      rw [ih bk bs hrest]
      simp only [List.filterMap_cons, hh, Option.map_none']
    | some hv =>
      simp only [Option.map_some']
      cases he : hv.1.emb with
      | none =>
        dsimp only
        rw [ih bk bs hrest]
        simp only [List.filterMap_cons, hh, Option.map_some', he, scoredOf,
          Option.map_none']
      | some emb =>
        dsimp only
        simp only [List.filterMap_cons, hh, Option.map_some', he, scoredOf]
        by_cases hcmp : bs < cosSim qEmb emb
        · rw [if_pos hcmp, ih (some k) (cosSim qEmb emb) hrest]
          simp only [scoredOf, List.filterMap_cons, Option.map_some', simFoldPure,
            if_pos hcmp]
        · rw [if_neg hcmp, ih bk bs hrest]
          simp only [scoredOf, List.filterMap_cons, Option.map_some', simFoldPure,
            if_neg hcmp]

theorem keysEntries (l : List (String × HashVal × Option Nat))
    (hnd : (l.map (fun e => e.1)).Nodup) :
    ((l.map (fun e => e.1)).filter
        (fun k => globMatchS (prefixStr ++ ":*:meta") k)).filterMap
      (fun k => (alookup k l).map (fun hv => (k, hv.1.emb))) =
    l.filterMap (fun e =>
      if globMatchS (prefixStr ++ ":*:meta") e.1 then some (e.1, e.2.1.emb) else none) := by
  induction l with
  | nil => rfl
  | cons e rest ih =>
    obtain ⟨k0, v0⟩ := e
    simp only [List.map_cons, List.nodup_cons] at hnd
    obtain ⟨hk0, hnd'⟩ := hnd
    have hcong : ∀ k ∈ (rest.map (fun e => e.1)).filter
        (fun k => globMatchS (prefixStr ++ ":*:meta") k),
        (alookup k ((k0, v0) :: rest)).map (fun hv => (k, hv.1.emb)) =
        (alookup k rest).map (fun hv => (k, hv.1.emb)) := by
      intro k hkmem
      have hkr : k ∈ rest.map (fun e => e.1) := (List.mem_filter.1 hkmem).1
      have : k0 ≠ k := fun hh => hk0 (hh ▸ hkr)
      rw [alookup_cons_ne k k0 v0 rest this]
    have hhead : alookup k0 ((k0, v0) :: rest) = some v0 := by
      simp [alookup]
    have hstep : Option.map (fun hv => (k0, hv.1.emb)) (alookup k0 ((k0, v0) :: rest)) =
        some (k0, v0.1.emb) := by
      rw [hhead]
      rfl
    by_cases hg : globMatchS (prefixStr ++ ":*:meta") k0
    · rw [List.map_cons, List.filter_cons, if_pos hg, List.filterMap_cons]
      dsimp only
      rw [hstep]
      rw [listFilterMapCongr _ _ _ hcong, ih hnd']
      rw [List.filterMap_cons]
      simp [hg]
    · rw [List.map_cons, List.filter_cons, if_neg hg]
      rw [listFilterMapCongr _ _ _ hcong, ih hnd']
      rw [List.filterMap_cons]
      simp [hg]

/-- C2.  Against the healthy store, `_find_similar_query` behaves exactly as
the claim describes: it returns the stripped cache key of the live embedding
entry whose stored vector has the highest cosine similarity to the query's
embedding, only when that maximum reaches the 0.8 threshold, the first entry
encountered winning among ties at the maximum; it returns none when no entry
carries an embedding or when the maximum misses the threshold. -/
theorem findSimilar_matches_spec (enc : String → Emb) (cosSim : Emb → Emb → ℚ)
    (q : String) (st : RedisState) (hwf : WFState st) :
    findSimilarQuery healthyOps enc cosSim q st =
      (.ok (findSimilarSpec cosSim (enc q) (metaEntries st)), st) := by
  obtain ⟨hstrs, hdisj, hnd⟩ := hwf
  unfold findSimilarQuery
  rw [healthy_keysOp]
  dsimp only
  have hkeys : (st.strs.map (fun e => e.1) ++ st.hashes.map (fun e => e.1)).filter
      (fun k => globMatchS (prefixStr ++ ":*:meta") k) =
      (st.hashes.map (fun e => e.1)).filter
        (fun k => globMatchS (prefixStr ++ ":*:meta") k) := by
    rw [List.filter_append]
    have hnil : (st.strs.map (fun e => e.1)).filter
        (fun k => globMatchS (prefixStr ++ ":*:meta") k) = [] := by
      rw [List.filter_eq_nil_iff]
      intro k hk
      simp [hstrs k hk]
    rw [hnil, List.nil_append]
  rw [hkeys]
  have hmeta : ((st.hashes.map (fun e => e.1)).filter
      (fun k => globMatchS (prefixStr ++ ":*:meta") k)).filterMap
        (fun k => (alookup k st.hashes).map (fun hv => (k, hv.1.emb))) =
      metaEntries st :=
    keysEntries st.hashes hnd
  by_cases hemp : ((st.hashes.map (fun e => e.1)).filter
      (fun k => globMatchS (prefixStr ++ ":*:meta") k)).isEmpty
  · rw [if_pos hemp]
    have hkslist := List.isEmpty_iff.1 hemp
    have hml : metaEntries st = [] := by
      rw [← hmeta, hkslist]
      rfl
    simp only [findSimilarSpec, hml, scoredOf, List.filterMap_nil, maxScore]
  · rw [if_neg hemp]
    have hks2 : ∀ k ∈ (st.hashes.map (fun e => e.1)).filter
        (fun k => globMatchS (prefixStr ++ ":*:meta") k),
        alookup k st.strs = none :=
      fun k hk => hdisj k (List.mem_filter.1 hk).1
    rw [simLoop_healthy cosSim (enc q) _ none (-1) st hks2]
    rw [hmeta]
    cases hms : maxScore (scoredOf cosSim (enc q) (metaEntries st)) with
    | none =>
      have hsc : scoredOf cosSim (enc q) (metaEntries st) = [] :=
        (maxScore_eq_none _).1 hms
      rw [hsc]
      simp only [simFoldPure, findSimilarSpec, hms]
    | some m =>
      by_cases hth : similarityThreshold ≤ m
      · have hlt : (-1 : ℚ) < m :=
          lt_of_lt_of_le neg_one_lt_similarityThreshold hth
        obtain ⟨k, hfind, hfold⟩ := simFoldPure_max _ none (-1) m hms hlt
        rw [hfold]
        simp only [findSimilarSpec, hms, hfind, if_pos hth]
      · by_cases hlt : (-1 : ℚ) < m
        · obtain ⟨k, hfind, hfold⟩ := simFoldPure_max _ none (-1) m hms hlt
          rw [hfold]
          simp only [findSimilarSpec, hms, if_neg hth]
        · push_neg at hlt
          have hb : simFoldPure (scoredOf cosSim (enc q) (metaEntries st)) none (-1) =
              (none, -1) :=
            simFoldPure_below _ none (-1)
              (fun p hp => le_trans (maxScore_le _ m hms p hp) hlt)
          rw [hb]
          simp only [findSimilarSpec, hms, if_neg hth]

/-- Witness for C2 at a concrete one-entry store: the single embedding entry
scores 1 ≥ 0.8 and its stripped key is returned, matching the specification
value. -/
theorem findSimilar_matches_spec_witness :
    findSimilarQuery healthyOps encZero cosOne "py"
        ⟨[], [("youtube_search:search:h1:meta", ⟨"python", some [1]⟩, some 3600)]⟩ =
      (.ok (findSimilarSpec cosOne (encZero "py")
        (metaEntries ⟨[], [("youtube_search:search:h1:meta", ⟨"python", some [1]⟩,
          some 3600)]⟩)),
        ⟨[], [("youtube_search:search:h1:meta", ⟨"python", some [1]⟩, some 3600)]⟩) :=
  findSimilar_matches_spec encZero cosOne "py"
    ⟨[], [("youtube_search:search:h1:meta", ⟨"python", some [1]⟩, some 3600)]⟩
    ⟨by decide, fun k _ => rfl, by decide⟩

/-! ### Cross-category semantic reuse (C9) -/

/-- C9.  The similarity fallback enumerates meta keys with the category wildcard
`youtube_search:*:meta`, so it sees both `search` and `edu` entries: here a
response cached by an educational search (under the `edu` key category) is
returned by `get_cached_search` with `is_educational = False` for a different
query whose similarity reaches the threshold — and symmetrically a non-educational
entry is returned to an educational request.  The request's category affects only
the exact-match key, not the similarity lookup, which takes no category argument. -/
theorem crossCategory_semantic_hit :
    (getCachedSearchRun healthyOps (fun _ => "habc") encZero cosOne "deep learning" 20
        none "relevance" false
        (cacheSearchResultsRun healthyOps (fun _ => "habc") encZero "machine learning"
          20 none "relevance" ⟨[], 7, none⟩ true ⟨[], []⟩)).1 =
      some ⟨[], 7, none⟩ ∧
    (getCachedSearchRun healthyOps (fun _ => "habc") encZero cosOne "deep learning" 20
        none "relevance" true
        (cacheSearchResultsRun healthyOps (fun _ => "habc") encZero "machine learning"
          20 none "relevance" ⟨[], 7, none⟩ false ⟨[], []⟩)).1 =
      some ⟨[], 7, none⟩ := by
  constructor
  · rfl
  · rfl

/-! ### Cache statistics (C10) -/

theorem isPrefixOf_append_self (l t : List Char) : l.isPrefixOf (l ++ t) = true := by
  induction l with
  | nil => simp [List.isPrefixOf]
  | cons c rest ih => simp [List.isPrefixOf, ih]

theorem isPrefixOf_mismatch (common : List Char) (c c' : Char) (a b : List Char)
    (h : c ≠ c') : (common ++ c :: a).isPrefixOf (common ++ c' :: b) = false := by
  induction common with
  | nil => simp [List.isPrefixOf, h]
  | cons d rest ih => simp [List.isPrefixOf, ih]

theorem globMatchAux_succ_nil (fuel : Nat) (s : List Char) :
    globMatchAux (fuel + 1) [] s = s.isEmpty := rfl

theorem globMatchAux_succ_star_nil (fuel : Nat) (ps : List Char) :
    globMatchAux (fuel + 1) ('*' :: ps) [] = globMatchAux fuel ps [] := rfl

theorem globMatchAux_succ_star_cons (fuel : Nat) (ps : List Char) (c : Char)
    (cs : List Char) :
    globMatchAux (fuel + 1) ('*' :: ps) (c :: cs) =
      (globMatchAux fuel ps (c :: cs) || globMatchAux fuel ('*' :: ps) cs) := rfl

theorem globMatchAux_succ_lit_nil (fuel : Nat) (pc : Char) (ps : List Char)
    (h : pc ≠ '*') : globMatchAux (fuel + 1) (pc :: ps) [] = false := by
  show (if pc = '*' then globMatchAux fuel ps [] else false) = false
  rw [if_neg h]

theorem globMatchAux_succ_lit_cons (fuel : Nat) (pc : Char) (ps : List Char)
    (c : Char) (cs : List Char) (h : pc ≠ '*') :
    globMatchAux (fuel + 1) (pc :: ps) (c :: cs) =
      (pc == c && globMatchAux fuel ps cs) := by
  show (if pc = '*' then _ else (pc == c && globMatchAux fuel ps cs)) = _
  rw [if_neg h]

theorem globAux_lit_star : ∀ (fuel : Nat) (lit s : List Char), '*' ∉ lit →
    lit.length + s.length + 2 ≤ fuel →
    globMatchAux fuel (lit ++ ['*']) s = lit.isPrefixOf s := by
  intro fuel
  induction fuel with
  | zero => intro lit s _ hf; omega
  | succ f ih =>
    intro lit s hstar hf
    cases lit with
    | nil =>
      rw [List.nil_append]
      cases s with
      | nil =>
        obtain ⟨f', rfl⟩ : ∃ f', f = f' + 1 :=
          ⟨f - 1, by simp only [List.length_nil] at hf; omega⟩
        rw [globMatchAux_succ_star_nil, globMatchAux_succ_nil]
        rfl
      | cons c cs =>
        rw [globMatchAux_succ_star_cons]
        obtain ⟨f', rfl⟩ : ∃ f', f = f' + 1 :=
          ⟨f - 1, by simp only [List.length_nil, List.length_cons] at hf; omega⟩
        rw [globMatchAux_succ_nil]
        have h2 := ih [] cs (by simp)
          (by simp only [List.length_nil, List.length_cons] at hf ⊢; omega)
        rw [List.nil_append] at h2
        rw [h2]
        simp [List.isPrefixOf]
    | cons lc lit' =>
      have hlc : lc ≠ '*' := fun hh => hstar (by simp [hh])
      have hstar' : '*' ∉ lit' := fun hh => hstar (by simp [hh])
      rw [List.cons_append]
      cases s with
      | nil =>
        rw [globMatchAux_succ_lit_nil f lc (lit' ++ ['*']) hlc]
        rfl
      | cons c cs =>
        rw [globMatchAux_succ_lit_cons f lc (lit' ++ ['*']) c cs hlc]
        rw [ih lit' cs hstar'
          (by simp only [List.length_cons] at hf ⊢; omega)]
        rfl

/-- Matching a pattern of the form `lit*` is exactly testing `lit` as a prefix. -/
theorem glob_lit_star (lit s : List Char) (h : '*' ∉ lit) :
    globMatch (lit ++ ['*']) s = lit.isPrefixOf s := by
  apply globAux_lit_star
  · exact h
  · simp only [List.length_append, List.length_cons, List.length_nil]
    omega

theorem globS_searchPat_searchKey (t : String) :
    globMatchS (prefixStr ++ ":search:*") (prefixStr ++ ":" ++ "search" ++ ":" ++ t) =
      true := by
  show globMatch (prefixStr ++ ":search:*").data
    (prefixStr ++ ":" ++ "search" ++ ":" ++ t).data = true
  rw [show (prefixStr ++ ":search:*").data =
      ("youtube_search:search:" : String).data ++ ['*'] from rfl]
  rw [show (prefixStr ++ ":" ++ "search" ++ ":" ++ t).data =
      ("youtube_search:search:" : String).data ++ t.data from by rw [String.data_append]; rfl]
  rw [glob_lit_star _ _ (by decide)]
  exact isPrefixOf_append_self _ _

theorem globS_searchPat_searchMeta (t : String) :
    globMatchS (prefixStr ++ ":search:*")
      (prefixStr ++ ":" ++ "search" ++ ":" ++ t ++ ":meta") = true := by
  show globMatch (prefixStr ++ ":search:*").data
    (prefixStr ++ ":" ++ "search" ++ ":" ++ t ++ ":meta").data = true
  rw [show (prefixStr ++ ":search:*").data =
      ("youtube_search:search:" : String).data ++ ['*'] from rfl]
  rw [show (prefixStr ++ ":" ++ "search" ++ ":" ++ t ++ ":meta").data =
      ("youtube_search:search:" : String).data ++ (t.data ++ (":meta" : String).data)
    from by rw [String.data_append, String.data_append, List.append_assoc]; rfl]
  rw [glob_lit_star _ _ (by decide)]
  exact isPrefixOf_append_self _ _

theorem globS_searchPat_eduKey (t : String) :
    globMatchS (prefixStr ++ ":search:*") (prefixStr ++ ":" ++ "edu" ++ ":" ++ t) =
      false := by
  show globMatch (prefixStr ++ ":search:*").data
    (prefixStr ++ ":" ++ "edu" ++ ":" ++ t).data = false
  rw [show (prefixStr ++ ":search:*").data =
      ("youtube_search:search:" : String).data ++ ['*'] from rfl]
  rw [show (prefixStr ++ ":" ++ "edu" ++ ":" ++ t).data =
      ("youtube_search:" : String).data ++ 'e' :: (("du:" : String).data ++ t.data)
    from by rw [String.data_append]; rfl]
  rw [glob_lit_star _ _ (by decide)]
  rw [show ("youtube_search:search:" : String).data =
      ("youtube_search:" : String).data ++ 's' :: ("earch:" : String).data from rfl]
  exact isPrefixOf_mismatch _ 's' 'e' _ _ (by decide)

theorem globS_searchPat_eduMeta (t : String) :
    globMatchS (prefixStr ++ ":search:*")
      (prefixStr ++ ":" ++ "edu" ++ ":" ++ t ++ ":meta") = false := by
  show globMatch (prefixStr ++ ":search:*").data
    (prefixStr ++ ":" ++ "edu" ++ ":" ++ t ++ ":meta").data = false
  rw [show (prefixStr ++ ":search:*").data =
      ("youtube_search:search:" : String).data ++ ['*'] from rfl]
  rw [show (prefixStr ++ ":" ++ "edu" ++ ":" ++ t ++ ":meta").data =
      ("youtube_search:" : String).data ++
        'e' :: (("du:" : String).data ++ (t.data ++ (":meta" : String).data))
    from by rw [String.data_append, String.data_append]; simp [List.append_assoc]; rfl]
  rw [glob_lit_star _ _ (by decide)]
  rw [show ("youtube_search:search:" : String).data =
      ("youtube_search:" : String).data ++ 's' :: ("earch:" : String).data from rfl]
  exact isPrefixOf_mismatch _ 's' 'e' _ _ (by decide)

theorem globS_eduPat_eduKey (t : String) :
    globMatchS (prefixStr ++ ":edu:*") (prefixStr ++ ":" ++ "edu" ++ ":" ++ t) =
      true := by
  show globMatch (prefixStr ++ ":edu:*").data
    (prefixStr ++ ":" ++ "edu" ++ ":" ++ t).data = true
  rw [show (prefixStr ++ ":edu:*").data =
      ("youtube_search:edu:" : String).data ++ ['*'] from rfl]
  rw [show (prefixStr ++ ":" ++ "edu" ++ ":" ++ t).data =
      ("youtube_search:edu:" : String).data ++ t.data from by rw [String.data_append]; rfl]
  rw [glob_lit_star _ _ (by decide)]
  exact isPrefixOf_append_self _ _

theorem globS_eduPat_eduMeta (t : String) :
    globMatchS (prefixStr ++ ":edu:*")
      (prefixStr ++ ":" ++ "edu" ++ ":" ++ t ++ ":meta") = true := by
  show globMatch (prefixStr ++ ":edu:*").data
    (prefixStr ++ ":" ++ "edu" ++ ":" ++ t ++ ":meta").data = true
  rw [show (prefixStr ++ ":edu:*").data =
      ("youtube_search:edu:" : String).data ++ ['*'] from rfl]
  rw [show (prefixStr ++ ":" ++ "edu" ++ ":" ++ t ++ ":meta").data =
      ("youtube_search:edu:" : String).data ++ (t.data ++ (":meta" : String).data)
    from by rw [String.data_append, String.data_append, List.append_assoc]; rfl]
  rw [glob_lit_star _ _ (by decide)]
  exact isPrefixOf_append_self _ _

theorem globS_eduPat_searchKey (t : String) :
    globMatchS (prefixStr ++ ":edu:*") (prefixStr ++ ":" ++ "search" ++ ":" ++ t) =
      false := by
  show globMatch (prefixStr ++ ":edu:*").data
    (prefixStr ++ ":" ++ "search" ++ ":" ++ t).data = false
  rw [show (prefixStr ++ ":edu:*").data =
      ("youtube_search:edu:" : String).data ++ ['*'] from rfl]
  rw [show (prefixStr ++ ":" ++ "search" ++ ":" ++ t).data =
      ("youtube_search:" : String).data ++ 's' :: (("earch:" : String).data ++ t.data)
    from by rw [String.data_append]; rfl]
  rw [glob_lit_star _ _ (by decide)]
  rw [show ("youtube_search:edu:" : String).data =
      ("youtube_search:" : String).data ++ 'e' :: ("du:" : String).data from rfl]
  exact isPrefixOf_mismatch _ 'e' 's' _ _ (by decide)

theorem globS_eduPat_searchMeta (t : String) :
    globMatchS (prefixStr ++ ":edu:*")
      (prefixStr ++ ":" ++ "search" ++ ":" ++ t ++ ":meta") = false := by
  show globMatch (prefixStr ++ ":edu:*").data
    (prefixStr ++ ":" ++ "search" ++ ":" ++ t ++ ":meta").data = false
  rw [show (prefixStr ++ ":edu:*").data =
      ("youtube_search:edu:" : String).data ++ ['*'] from rfl]
  rw [show (prefixStr ++ ":" ++ "search" ++ ":" ++ t ++ ":meta").data =
      ("youtube_search:" : String).data ++
        's' :: (("earch:" : String).data ++ (t.data ++ (":meta" : String).data))
    from by rw [String.data_append, String.data_append]; simp [List.append_assoc]; rfl]
  rw [glob_lit_star _ _ (by decide)]
  rw [show ("youtube_search:edu:" : String).data =
      ("youtube_search:" : String).data ++ 'e' :: ("du:" : String).data from rfl]
  exact isPrefixOf_mismatch _ 'e' 's' _ _ (by decide)

theorem ainsert_absent {α : Type} (k : String) (v : α) (l : List (String × α))
    (h : alookup k l = none) : ainsert k v l = l ++ [(k, v)] := by
  induction l with
  | nil => rfl
  | cons e rest ih =>
    obtain ⟨k0, v0⟩ := e
    by_cases h0 : k0 = k
    · simp [alookup, h0] at h
    · simp only [alookup, if_pos, if_neg h0] at h
      simp [ainsert, h0, ih h]

theorem eraseKey_absent {α : Type} (k : String) (l : List (String × α))
    (h : alookup k l = none) : eraseKey k l = l := by
  induction l with
  | nil => rfl
  | cons e rest ih =>
    obtain ⟨k0, v0⟩ := e
    by_cases h0 : k0 = k
    · simp [alookup, h0] at h
    · simp only [alookup, if_neg h0] at h
      have hpred : (!((k0, v0).1 == k)) = true := by simp [h0]
      have htail := ih h
      unfold eraseKey at htail ⊢
      rw [List.filter_cons, if_pos hpred, htail]

theorem hsetA_absent (k : String) (hv : HashVal)
    (l : List (String × HashVal × Option Nat)) (h : alookup k l = none) :
    hsetA k hv l = l ++ [(k, hv, none)] := by
  induction l with
  | nil => rfl
  | cons e rest ih =>
    obtain ⟨k0, v0⟩ := e
    by_cases h0 : k0 = k
    · simp [alookup, h0] at h
    · simp only [alookup, if_neg h0] at h
      simp [hsetA, h0, ih h]

theorem expireA_absent (k : String) (ttl : Nat)
    (l : List (String × HashVal × Option Nat)) (h : alookup k l = none) :
    expireA k ttl l = l := by
  induction l with
  | nil => rfl
  | cons e rest ih =>
    obtain ⟨k0, v0⟩ := e
    by_cases h0 : k0 = k
    · simp [alookup, h0] at h
    · simp only [alookup, if_neg h0] at h
      simp [expireA, h0] at ih ⊢
      exact ih h

theorem alookup_append_none {α : Type} (k : String) (l1 l2 : List (String × α))
    (h : alookup k l1 = none) : alookup k (l1 ++ l2) = alookup k l2 := by
  induction l1 with
  | nil => rfl
  | cons e rest ih =>
    obtain ⟨k0, v0⟩ := e
    by_cases h0 : k0 = k
    · simp [alookup, h0] at h
    · simp only [alookup, if_neg h0] at h
      simp [alookup, h0, ih h]

/-- The full state shape produced by a `cache_search_results` write whose two keys
are fresh: the payload is appended to the string table with the category TTL, and
the metadata is appended to the hash table under the meta key with the same TTL. -/
theorem cacheRun_state_shape (md5hex : String → String) (enc : String → Emb)
    (q : String) (mr : Int) (pt : Option String) (ord : String)
    (r : YouTubeSearchResponse) (edu : Bool) (st : RedisState)
    (h1 : alookup (generateCacheKey md5hex q mr pt ord edu) st.strs = none)
    (h2 : alookup (generateCacheKey md5hex q mr pt ord edu) st.hashes = none)
    (h3 : alookup (generateCacheKey md5hex q mr pt ord edu ++ ":meta") st.strs = none)
    (h4 : alookup (generateCacheKey md5hex q mr pt ord edu ++ ":meta") st.hashes = none) :
    cacheSearchResultsRun healthyOps md5hex enc q mr pt ord r edu st =
      ⟨st.strs ++ [(generateCacheKey md5hex q mr pt ord edu, dumpResponse r,
          if edu then educationalTtl else defaultTtl)],
        st.hashes ++ [(generateCacheKey md5hex q mr pt ord edu ++ ":meta",
          ⟨pyNormQuery q, some (enc q)⟩,
          some (if edu then educationalTtl else defaultTtl))]⟩ := by
  unfold cacheSearchResultsRun cacheSearchResultsBody
  dsimp only
  rw [healthy_setex]
  dsimp only
  unfold storeEmbedding
  rw [healthy_hset]
  dsimp only
  have hmne : generateCacheKey md5hex q mr pt ord edu ++ ":meta" ≠
      generateCacheKey md5hex q mr pt ord edu :=
    fun hh => key_ne_meta _ hh.symm
  have hmeta_strs : alookup (generateCacheKey md5hex q mr pt ord edu ++ ":meta")
      (ainsert (generateCacheKey md5hex q mr pt ord edu)
        (dumpResponse r, if edu then educationalTtl else defaultTtl) st.strs) = none := by
    rw [alookup_ainsert_ne _ _ _ _ hmne]
    exact h3
  rw [hmeta_strs]
  simp only [Option.isSome_none, Bool.false_eq_true, if_false]
  rw [healthy_expire]
  dsimp only
  rw [ainsert_absent _ _ _ h1, eraseKey_absent _ _ h2, hsetA_absent _ _ _ h4]
  rw [show expireA (generateCacheKey md5hex q mr pt ord edu ++ ":meta")
      (if edu then educationalTtl else defaultTtl)
      (st.hashes ++ [(generateCacheKey md5hex q mr pt ord edu ++ ":meta",
        ⟨pyNormQuery q, some (enc q)⟩, none)]) =
    expireA (generateCacheKey md5hex q mr pt ord edu ++ ":meta")
      (if edu then educationalTtl else defaultTtl) st.hashes ++
    expireA (generateCacheKey md5hex q mr pt ord edu ++ ":meta")
      (if edu then educationalTtl else defaultTtl)
      [(generateCacheKey md5hex q mr pt ord edu ++ ":meta",
        ⟨pyNormQuery q, some (enc q)⟩, none)] from List.map_append _ _ _]
  rw [expireA_absent _ _ _ h4]
  simp [expireA]

/-- All keys of the store, string keys then hash keys, as KEYS enumerates them. -/
def allKeys (st : RedisState) : List String :=
  st.strs.map (fun e => e.1) ++ st.hashes.map (fun e => e.1)

/-- The number of keys the `search` category pattern matches. -/
def countSearchKeys (st : RedisState) : Nat :=
  ((allKeys st).filter (fun k => globMatchS (prefixStr ++ ":search:*") k)).length

/-- The number of keys the `edu` category pattern matches. -/
def countEduKeys (st : RedisState) : Nat :=
  ((allKeys st).filter (fun k => globMatchS (prefixStr ++ ":edu:*") k)).length

theorem stats_healthy (st : RedisState) :
    getCacheStatsRun healthyOps st =
      (some ⟨countSearchKeys st + countEduKeys st, countSearchKeys st,
        countEduKeys st, prefixStr⟩, st) := rfl

/-- One cached search as the orchestration performs it: the parameters of the
request, the fresh upstream response, and whether the search was educational. -/
structure WriteReq where
  query : String
  maxResults : Int
  pageToken : Option String
  order : String
  results : YouTubeSearchResponse
  isEducational : Bool

/-- The payload cache key a write derives. -/
def keyOfReq (md5hex : String → String) (w : WriteReq) : String :=
  generateCacheKey md5hex w.query w.maxResults w.pageToken w.order w.isEducational

/-- A sequence of `cache_search_results` calls against the healthy store. -/
def applyWrites (md5hex : String → String) (enc : String → Emb) :
    List WriteReq → RedisState → RedisState
  | [], st => st
  | w :: ws, st =>
    applyWrites md5hex enc ws (cacheSearchResultsRun healthyOps md5hex enc w.query
      w.maxResults w.pageToken w.order w.results w.isEducational st)

/-- The keys a sequence of writes creates: each write adds its payload key and its
meta key. -/
def newKeys (md5hex : String → String) (ws : List WriteReq) : List String :=
  ws.flatMap (fun w => [keyOfReq md5hex w, keyOfReq md5hex w ++ ":meta"])

theorem count_after_write (md5hex : String → String) (enc : String → Emb)
    (w : WriteReq) (st : RedisState)
    (h1 : alookup (keyOfReq md5hex w) st.strs = none)
    (h2 : alookup (keyOfReq md5hex w) st.hashes = none)
    (h3 : alookup (keyOfReq md5hex w ++ ":meta") st.strs = none)
    (h4 : alookup (keyOfReq md5hex w ++ ":meta") st.hashes = none) :
    countSearchKeys (cacheSearchResultsRun healthyOps md5hex enc w.query w.maxResults
        w.pageToken w.order w.results w.isEducational st) =
      countSearchKeys st + (if w.isEducational then 0 else 2) ∧
    countEduKeys (cacheSearchResultsRun healthyOps md5hex enc w.query w.maxResults
        w.pageToken w.order w.results w.isEducational st) =
      countEduKeys st + (if w.isEducational then 2 else 0) := by
  rw [cacheRun_state_shape md5hex enc w.query w.maxResults w.pageToken w.order
    w.results w.isEducational st h1 h2 h3 h4]
  unfold countSearchKeys countEduKeys allKeys
  dsimp only
  simp only [List.map_append, List.map_cons, List.map_nil, List.filter_append,
    List.length_append]
  cases hedu : w.isEducational with
  | false =>
    simp only [generateCacheKey, hedu, Bool.false_eq_true, if_false]
    simp [List.filter_cons, globS_searchPat_searchKey, globS_searchPat_searchMeta,
      globS_eduPat_searchKey, globS_eduPat_searchMeta]
    omega
  | true =>
    simp only [generateCacheKey, hedu, if_true]
    simp [List.filter_cons, globS_searchPat_eduKey, globS_searchPat_eduMeta,
      globS_eduPat_eduKey, globS_eduPat_eduMeta]
    omega

theorem applyWrites_counts (md5hex : String → String) (enc : String → Emb) :
    ∀ (ws : List WriteReq) (st : RedisState),
    (newKeys md5hex ws).Nodup →
    (∀ k ∈ newKeys md5hex ws, alookup k st.strs = none ∧ alookup k st.hashes = none) →
    countSearchKeys (applyWrites md5hex enc ws st) =
      countSearchKeys st + 2 * (ws.filter (fun w => !w.isEducational)).length ∧
    countEduKeys (applyWrites md5hex enc ws st) =
      countEduKeys st + 2 * (ws.filter (fun w => w.isEducational)).length := by
  intro ws
  induction ws with
  | nil =>
    intro st _ _
    simp [applyWrites]
  | cons w ws ih =>
    intro st hnd habs
    have hnk : newKeys md5hex (w :: ws) =
        keyOfReq md5hex w :: (keyOfReq md5hex w ++ ":meta") :: newKeys md5hex ws := by
      simp [newKeys]
    rw [hnk] at hnd habs
    obtain ⟨h1, h2⟩ := habs (keyOfReq md5hex w) (by simp)
    obtain ⟨h3, h4⟩ := habs (keyOfReq md5hex w ++ ":meta") (by simp)
    have hdelta := count_after_write md5hex enc w st h1 h2 h3 h4
    simp only [List.nodup_cons] at hnd
    have hnd' : (newKeys md5hex ws).Nodup := hnd.2.2
    have habs' : ∀ k ∈ newKeys md5hex ws,
        alookup k (cacheSearchResultsRun healthyOps md5hex enc w.query w.maxResults
          w.pageToken w.order w.results w.isEducational st).strs = none ∧
        alookup k (cacheSearchResultsRun healthyOps md5hex enc w.query w.maxResults
          w.pageToken w.order w.results w.isEducational st).hashes = none := by
      intro k hk
      have hkK : keyOfReq md5hex w ≠ k := by
        intro hh
        exact hnd.1 (by simp [hh, hk])
      have hkM : keyOfReq md5hex w ++ ":meta" ≠ k := by
        intro hh
        exact hnd.2.1 (by simp [hh, hk])
      obtain ⟨ha, hb⟩ := habs k (by simp [hk])
      rw [cacheRun_state_shape md5hex enc w.query w.maxResults w.pageToken w.order
        w.results w.isEducational st h1 h2 h3 h4]
      constructor
      · dsimp only
        rw [alookup_append_none _ _ _ ha]
        have hkK' : ¬ (generateCacheKey md5hex w.query w.maxResults w.pageToken
            w.order w.isEducational = k) := hkK
        simp only [alookup]
        rw [if_neg hkK']
      · dsimp only
        rw [alookup_append_none _ _ _ hb]
        have hkM' : ¬ (generateCacheKey md5hex w.query w.maxResults w.pageToken
            w.order w.isEducational ++ ":meta" = k) := hkM
        simp only [alookup]
        rw [if_neg hkM']
    have hrec := ih (cacheSearchResultsRun healthyOps md5hex enc w.query w.maxResults
      w.pageToken w.order w.results w.isEducational st) hnd' habs'
    have happ : applyWrites md5hex enc (w :: ws) st =
        applyWrites md5hex enc ws (cacheSearchResultsRun healthyOps md5hex enc w.query
          w.maxResults w.pageToken w.order w.results w.isEducational st) := rfl
    rw [happ]
    refine ⟨?_, ?_⟩
    · rw [hrec.1, hdelta.1]
      cases hedu : w.isEducational with
      | false =>
        simp [List.filter_cons, hedu]
        try omega
      | true =>
        simp [List.filter_cons, hedu]
        try omega
    · rw [hrec.2, hdelta.2]
      cases hedu : w.isEducational with
      | false =>
        simp [List.filter_cons, hedu]
        try omega
      | true =>
        simp [List.filter_cons, hedu]
        try omega

theorem filter_isEdu_split (ws : List WriteReq) :
    (ws.filter (fun w => !w.isEducational)).length +
      (ws.filter (fun w => w.isEducational)).length = ws.length := by
  induction ws with
  | nil => rfl
  | cons w rest ih =>
    cases hedu : w.isEducational <;> simp [List.filter_cons, hedu] <;> omega

/-- C10.  The statistics patterns `youtube_search:search:*` and
`youtube_search:edu:*` match the `:meta` embedding keys as well as the payload
keys, so after N successful writes under N distinct keys into an empty store,
`get_cache_stats` reports `total_cached_searches = 2 * N` — and each per-category
count doubles its number of writes likewise. -/
theorem getCacheStats_counts_meta (md5hex : String → String) (enc : String → Emb)
    (ws : List WriteReq) (hnd : (newKeys md5hex ws).Nodup) :
    getCacheStatsRun healthyOps (applyWrites md5hex enc ws ⟨[], []⟩) =
      (some ⟨2 * ws.length,
        2 * (ws.filter (fun w => !w.isEducational)).length,
        2 * (ws.filter (fun w => w.isEducational)).length, prefixStr⟩,
       applyWrites md5hex enc ws ⟨[], []⟩) := by
  obtain ⟨hS, hE⟩ := applyWrites_counts md5hex enc ws ⟨[], []⟩ hnd
    (fun k _ => ⟨rfl, rfl⟩)
  rw [stats_healthy]
  rw [show countSearchKeys ⟨[], []⟩ = 0 from rfl] at hS
  rw [show countEduKeys ⟨[], []⟩ = 0 from rfl] at hE
  rw [hS, hE]
  simp only [Nat.zero_add]
  have hsplit := filter_isEdu_split ws
  have htot : 2 * (ws.filter (fun w => !w.isEducational)).length +
      2 * (ws.filter (fun w => w.isEducational)).length = 2 * ws.length := by omega
  rw [htot]

/-- Witness for C10 at two concrete writes (one general, one educational) with a
constant digest oracle: the stats report 4 cached searches, 2 per category. -/
theorem getCacheStats_counts_meta_witness :
    getCacheStatsRun healthyOps (applyWrites (fun _ => "h1") encZero
        [⟨"python", 20, none, "relevance", ⟨[], 0, none⟩, false⟩,
         ⟨"biology", 10, none, "relevance", ⟨[], 1, none⟩, true⟩] ⟨[], []⟩) =
      (some ⟨2 * ([⟨"python", 20, none, "relevance", ⟨[], 0, none⟩, false⟩,
          ⟨"biology", 10, none, "relevance", ⟨[], 1, none⟩, true⟩] : List WriteReq).length,
        2 * (([⟨"python", 20, none, "relevance", ⟨[], 0, none⟩, false⟩,
          ⟨"biology", 10, none, "relevance", ⟨[], 1, none⟩, true⟩] : List WriteReq).filter
            (fun w => !w.isEducational)).length,
        2 * (([⟨"python", 20, none, "relevance", ⟨[], 0, none⟩, false⟩,
          ⟨"biology", 10, none, "relevance", ⟨[], 1, none⟩, true⟩] : List WriteReq).filter
            (fun w => w.isEducational)).length, prefixStr⟩,
       applyWrites (fun _ => "h1") encZero
        [⟨"python", 20, none, "relevance", ⟨[], 0, none⟩, false⟩,
         ⟨"biology", 10, none, "relevance", ⟨[], 1, none⟩, true⟩] ⟨[], []⟩) :=
  getCacheStats_counts_meta (fun _ => "h1") encZero
    [⟨"python", 20, none, "relevance", ⟨[], 0, none⟩, false⟩,
     ⟨"biology", 10, none, "relevance", ⟨[], 1, none⟩, true⟩] (by decide)

end OkoaSem
